import Mathlib

/-!
# Verification of the sandboxed code-verification core
  (cs329 homework: harness builders, marker parser, sandbox executors)

This file gives a shallow embedding of the repository's core:

* `_parse_marker_summary` (src/cs329_hw/methods/verifiers.py) — the marker
  protocol parser, embedded over explicit character lists,
* the free-form (HumanEval) and structured harness builders and a semantic
  model of the marker output the generated harness programs print,
* `run_python` (src/cs329_hw/run/sandbox.py) and `run_python_in_docker`
  (src/cs329_hw/run/sandbox_docker.py) — the two process executors, embedded
  as pure outcome-classification functions over an abstract subprocess
  outcome,
* `HumanEvalVerifier.verify` — the orchestrator dispatch.

Python-level conventions used in the embedding:

* Python `str` values are modelled as `List Char` (`Chars`) at the points the
  proofs inspect, and as Lean `String` at the interfaces.
* `str.strip()` is modelled by `pyStrip` over the ASCII whitespace characters
  (plus the ASCII separator controls); exotic Unicode space characters that
  Python would additionally strip never occur in the marker protocol.
* `str.splitlines()` is modelled by `pySplitlines`, covering Python's line
  boundary characters `\n`, `\r`, `\r\n`, `\x0b`, `\x0c`, `\x1c`-`\x1e`,
  `\x85`, ` `, ` `.
* `int(s)` is modelled by `pyInt`: optional sign, ASCII digits, with single
  underscores permitted between digits, as in Python; non-ASCII digits that
  Python would also accept never occur in the marker protocol.
-/

/-! ## Character-level utilities (Python string primitives) -/

abbrev Chars := List Char

/-- Whitespace stripped by Python's `str.strip()` (ASCII part: space, tab,
newline, vertical tab, form feed, carriage return, and the separator
controls 0x1c-0x1f; 0x85 and the Unicode space/separator characters that
Python also strips are included for the ones that can double as line
boundaries). -/
def isPySpace (c : Char) : Bool :=
  c = ' ' || c = '\t' || c = '\n' || c = '\r' ||
  c.toNat = 11 || c.toNat = 12 ||
  c.toNat = 28 || c.toNat = 29 || c.toNat = 30 || c.toNat = 31 ||
  c.toNat = 133 || c.toNat = 8232 || c.toNat = 8233

/-- Line boundary characters of Python's `str.splitlines()`. -/
def isLineBreak (c : Char) : Bool :=
  c = '\n' || c = '\r' ||
  c.toNat = 11 || c.toNat = 12 ||
  c.toNat = 28 || c.toNat = 29 || c.toNat = 30 ||
  c.toNat = 133 || c.toNat = 8232 || c.toNat = 8233

/-- Remove trailing characters satisfying `isPySpace`. -/
def dropTrail (l : Chars) : Chars :=
  (l.reverse.dropWhile isPySpace).reverse

/-- Python `str.strip()`. -/
def pyStrip (l : Chars) : Chars :=
  dropTrail (l.dropWhile isPySpace)

/-- Python `str.splitlines()`: accumulator-based splitter.  `\r\n` counts as
a single boundary; a trailing boundary does not produce a final empty line. -/
def splitlinesAux : Chars → Chars → List Chars
  | [], cur => if cur.isEmpty then [] else [cur.reverse]
  | '\r' :: '\n' :: rest, cur => cur.reverse :: splitlinesAux rest []
  | c :: rest, cur =>
    if isLineBreak c then cur.reverse :: splitlinesAux rest []
    else splitlinesAux rest (c :: cur)

/-- The lines of a stdout string, as Python's `splitlines()` yields them. -/
def linesOf (s : String) : List Chars := splitlinesAux s.data []

/-- `pat` occurs as a contiguous substring (Python's `in` on strings). -/
def containsSub (pat : Chars) : Chars → Bool
  | [] => pat.isPrefixOf []
  | c :: rest => pat.isPrefixOf (c :: rest) || containsSub pat rest

/-- Python `str.split("/")`: split on every slash; `n` slashes yield `n+1`
fields; the empty string yields one empty field. -/
def splitSlash : Chars → List Chars
  | [] => [[]]
  | c :: rest =>
    if c = '/' then [] :: splitSlash rest
    else
      match splitSlash rest with
      | [] => [[c]]
      | p :: ps => (c :: p) :: ps

/-- ASCII decimal digit test. -/
def isDigitB (c : Char) : Bool := '0' ≤ c && c ≤ '9'

/-- Value of an ASCII decimal digit. -/
def dval (c : Char) : Nat := c.toNat - 48

/-- Digit-run scanner for Python `int()`: after a first digit, accepts
further digits with single underscores permitted between digits (an
underscore must be followed by a digit, and cannot follow another
underscore). -/
def pyDigitsGo : Chars → Nat → Option Nat
  | [], acc => some acc
  | [c], acc => if isDigitB c then some (acc * 10 + dval c) else Option.none
  | c :: d :: rest, acc =>
    if isDigitB c then pyDigitsGo (d :: rest) (acc * 10 + dval c)
    else if c = '_' && isDigitB d then pyDigitsGo rest (acc * 10 + dval d)
    else Option.none

/-- Unsigned part of Python `int()`: a nonempty digit run. -/
def pyDigits : Chars → Option Nat
  | [] => Option.none
  | c :: rest => if isDigitB c then pyDigitsGo rest (dval c) else Option.none

/-- Python `int(s)` on an already-stripped string: optional sign, digits.
Returns `none` where Python raises `ValueError`. -/
def pyInt (l : Chars) : Option Int :=
  match l with
  | [] => Option.none
  | c :: rest =>
    if c = '-' then (pyDigits rest).map (fun n => -(n : Int))
    else if c = '+' then (pyDigits rest).map (fun n => (n : Int))
    else (pyDigits (c :: rest)).map (fun n => (n : Int))

/-! ## The marker protocol parser (`_parse_marker_summary`) -/

/-- The `__RESULT__=` marker (11 characters). -/
def resMarker : Chars := ['_', '_', 'R', 'E', 'S', 'U', 'L', 'T', '_', '_', '=']

/-- The `__COUNTS__=` marker (11 characters). -/
def countsMarker : Chars := ['_', '_', 'C', 'O', 'U', 'N', 'T', 'S', '_', '_', '=']

/-- The characters of `"OK"`. -/
def okChars : Chars := ['O', 'K']

/-- One iteration of the parser's line loop, on state
`(passed_all, num_passed, num_total)`.  Mirrors
`_parse_marker_summary`'s loop body: the raw line is stripped; a line
beginning with `__RESULT__=` sets `passed_all` from the text after the first
`=`; a line beginning with `__COUNTS__=` is split after the first `=` and on
`/`, and each successfully converted field is assigned in order
(`num_passed` first), a `ValueError` aborting the remaining assignments. -/
def parseStep (st : Bool × Int × Int) (rawLine : Chars) : Bool × Int × Int :=
  let line := pyStrip rawLine
  if resMarker.isPrefixOf line then
    (pyStrip (line.drop 11) == okChars, st.2.1, st.2.2)
  else if countsMarker.isPrefixOf line then
    match splitSlash (pyStrip (line.drop 11)) with
    | [l, r] =>
      match pyInt (pyStrip l) with
      | Option.none => st
      | some pv =>
        match pyInt (pyStrip r) with
        | Option.none => (st.1, pv, st.2.2)
        | some tv => (st.1, pv, tv)
    | _ => st
  else st

/-- The parser's result triple. -/
structure ParseResult where
  passedAll : Bool
  numPassed : Int
  numTotal : Int
deriving DecidableEq, Repr

/-- `_parse_marker_summary` reduced over an explicit line list: fold the line
loop from `(False, 0, 0)`, then, mirroring the final inference, recompute
`passed_all` from the counts only when `num_total > 0` and no raw line
contains the substring `__RESULT__=`. -/
def parseLinesC (lines : List Chars) : ParseResult :=
  let st := lines.foldl parseStep (false, 0, 0)
  let seen := lines.any (fun l => containsSub resMarker l)
  ⟨if st.2.2 > 0 ∧ ¬seen then st.2.1 == st.2.2 else st.1, st.2.1, st.2.2⟩

/-- `HumanEvalVerifier._parse_marker_summary`: parse a stdout string to
`(passed_all, num_passed, num_total)`.  (The `if not stdout` early return of
the source coincides with folding over zero lines.) -/
def parseMarkerSummary (stdout : String) : ParseResult :=
  parseLinesC (linesOf stdout)

/-! ## Python value model

The JSON-typed values appearing in structured test cases (`args`, `kwargs`
values, `expected`): `None`, booleans, integers, strings and lists.  (JSON
objects nested inside values and floats are outside the model.) -/

mutual
inductive PyVal where
  | pnone
  | pbool (b : Bool)
  | pint (n : Int)
  | pstr (s : Chars)
  | plist (l : PyList)
inductive PyList where
  | lnil
  | lcons (v : PyVal) (tl : PyList)
end

mutual
/-- Python `==` on modelled values; `True == 1` and `False == 0` hold, as in
Python, and lists compare elementwise. -/
def pyEq : PyVal → PyVal → Bool
  | .pnone, .pnone => true
  | .pbool a, .pbool b => a == b
  | .pbool a, .pint n => (if a then (1 : Int) else 0) == n
  | .pint n, .pbool a => n == (if a then (1 : Int) else 0)
  | .pint m, .pint n => m == n
  | .pstr s, .pstr t => s == t
  | .plist l, .plist m => pyEqList l m
  | _, _ => false
def pyEqList : PyList → PyList → Bool
  | .lnil, .lnil => true
  | .lcons v tl, .lcons w tm => pyEq v w && pyEqList tl tm
  | _, _ => false
end

/-- The decimal digit character for `n < 10`. -/
def digitChar (n : Nat) : Char := Char.ofNat (48 + n)

/-- Decimal digits of a natural number, most significant first
(fuel-structured so the kernel can evaluate it). -/
def pyStrNatAux : Nat → Nat → Chars
  | 0, _ => []
  | fuel + 1, n =>
    if n < 10 then [digitChar n]
    else pyStrNatAux fuel (n / 10) ++ [digitChar (n % 10)]

/-- Python `str(n)` for a natural number. -/
def pyStrNat (n : Nat) : Chars := pyStrNatAux (n + 1) n

/-- Python `str(n)` / `repr(n)` for an integer. -/
def pyStrInt (n : Int) : Chars :=
  if n < 0 then '-' :: pyStrNat n.natAbs else pyStrNat n.natAbs

/-- Lowercase hexadecimal digit character. -/
def hexDigitChar (n : Nat) : Char :=
  if n < 10 then digitChar n else Char.ofNat (87 + n)

/-- Python `repr` escaping of one string character under quote `q`:
backslash, the quote, `\n`, `\r`, `\t` get two-character escapes;
other non-printable characters (controls, 0x7f-0xa0, the line/paragraph
separators) get `\xhh` / `\uhhhh`; everything else is kept. -/
def pyEscChar (q : Char) (c : Char) : Chars :=
  if c = '\\' then ['\\', '\\']
  else if c = q then ['\\', q]
  else if c = '\n' then ['\\', 'n']
  else if c = '\r' then ['\\', 'r']
  else if c = '\t' then ['\\', 't']
  else if c.toNat < 32 || c.toNat = 127 || (128 ≤ c.toNat && c.toNat ≤ 160) ||
      c.toNat = 8232 || c.toNat = 8233 then
    if c.toNat < 256 then
      ['\\', 'x', hexDigitChar (c.toNat / 16), hexDigitChar (c.toNat % 16)]
    else
      ['\\', 'u', hexDigitChar (c.toNat / 4096 % 16), hexDigitChar (c.toNat / 256 % 16),
        hexDigitChar (c.toNat / 16 % 16), hexDigitChar (c.toNat % 16)]
  else [c]

/-- Python `repr` of a string: single-quoted, switching to double quotes when
the string contains `'` but no `"`. -/
def pyStrReprChars (s : Chars) : Chars :=
  let q := if s.contains '\'' && !s.contains '"' then '"' else '\''
  q :: (s.map (pyEscChar q)).flatten ++ [q]

mutual
/-- Python `repr` of a modelled value. -/
def pyReprChars : PyVal → Chars
  | .pnone => ['N', 'o', 'n', 'e']
  | .pbool true => ['T', 'r', 'u', 'e']
  | .pbool false => ['F', 'a', 'l', 's', 'e']
  | .pint n => pyStrInt n
  | .pstr s => pyStrReprChars s
  | .plist l => '[' :: pyReprList l ++ [']']
def pyReprList : PyList → Chars
  | .lnil => []
  | .lcons v .lnil => pyReprChars v
  | .lcons v (.lcons w tl) => pyReprChars v ++ ',' :: ' ' :: pyReprList (.lcons w tl)
end

/-! ## Data model (`TestCase`, `ExecResult`) -/

/-- `TestCase` (src/cs329_hw/methods/verifiers.py): name, positional args,
named args (insertion-ordered, as Python dicts are), expected return value. -/
structure TestCase where
  name : String
  args : List PyVal
  kwargs : List (String × PyVal)
  expected : PyVal

/-- `ExecResult` (src/cs329_hw/run/sandbox.py and sandbox_docker.py; the two
definitions in the source are identical).  The wall-clock float `time_s` is
modelled as an opaque duration value. -/
structure ExecResult where
  ok : Bool
  stdout : String
  stderr : String
  exception : Option String
  time_s : Nat
deriving DecidableEq, Repr

/-! ## Structured-mode harness semantics (`_build_structured_harness`)

The generated program runs the candidate code, then for each case `i` in
input order executes the guarded block

    try:
        __res = fn(*args_i, **kwargs_i)
        __ok = (__res == expected_i)
    except Exception as __e:
        __res = f"__EXC__:{ty}:{msg}"
        __ok = False
    print("__CASE__", i, int(__ok), repr(__res), repr(expected_i))
    if __ok: __NUM_PASSED__ += 1

with `__NUM_TOTAL__` fixed to `len(cases)` up front, and finally prints
`__RESULT__=OK` iff `__NUM_PASSED__ == __NUM_TOTAL__`, a counts line and a
time line.  The candidate function is abstracted as `PyFun`; the model's
stdout is the tail's marker output (a candidate that itself writes to stdout
is outside the model). -/

/-- An uncaught Python exception: class name and message. -/
structure PyExc where
  ty : Chars
  msg : Chars

/-- The candidate's target function: positional + named arguments to a
return value or a raised exception. -/
abbrev PyFun := List PyVal → List (String × PyVal) → Except PyExc PyVal

/-- The `f"__EXC__:{type(__e).__name__}:{__e}"` tag recorded as `__res` when
a case's call raises. -/
def excTagChars (e : PyExc) : Chars :=
  ['_', '_', 'E', 'X', 'C', '_', '_', ':'] ++ e.ty ++ ':' :: e.msg

/-- One guarded case invocation: the recorded `__res` value and `__ok` flag. -/
def runCase (f : PyFun) (tc : TestCase) : PyVal × Bool :=
  match f tc.args tc.kwargs with
  | .ok r => (r, pyEq r tc.expected)
  | .error e => (.pstr (excTagChars e), false)

/-- The `__CASE__` marker word. -/
def caseMarkerChars : Chars := ['_', '_', 'C', 'A', 'S', 'E', '_', '_']

/-- The structured per-case marker line
`__CASE__ <i> <0|1> <repr(__res)> <repr(expected)>`. -/
def caseLineChars (i : Nat) (ok : Bool) (res exp : PyVal) : Chars :=
  caseMarkerChars ++ ' ' :: pyStrNat i ++ ' ' :: (if ok then '1' else '0') ::
    ' ' :: pyReprChars res ++ ' ' :: pyReprChars exp

/-- The case lines printed by the structured harness, indices starting at
`i`, in input order. -/
def structCaseLinesFrom (f : PyFun) : Nat → List TestCase → List Chars
  | _, [] => []
  | i, tc :: rest =>
    caseLineChars i (runCase f tc).2 (runCase f tc).1 tc.expected ::
      structCaseLinesFrom f (i + 1) rest

/-- Final value of `__NUM_PASSED__` in the structured harness. -/
def structPassed (f : PyFun) (cases : List TestCase) : Nat :=
  cases.countP (fun tc => (runCase f tc).2)

/-- `__RESULT__=OK` / `__RESULT__=FAIL`. -/
def resLineChars (ok : Bool) : Chars :=
  resMarker ++ (if ok then okChars else ['F', 'A', 'I', 'L'])

/-- `__COUNTS__= <p> / <t>` as printed by
`print("__COUNTS__=", p, "/", t)`. -/
def countsLineChars (p t : Nat) : Chars :=
  countsMarker ++ ' ' :: pyStrNat p ++ ' ' :: '/' :: ' ' :: pyStrNat t

/-- `__TIME__= <elapsed>`; the float rendering of the elapsed time is
abstracted as a character string `tstr`. -/
def timeLineChars (tstr : Chars) : Chars :=
  ['_', '_', 'T', 'I', 'M', 'E', '_', '_', '=', ' '] ++ tstr

/-- The three aggregate marker lines both harnesses end with. -/
def harnessTailLines (ok : Bool) (p t : Nat) (tstr : Chars) : List Chars :=
  [resLineChars ok, countsLineChars p t, timeLineChars tstr]

/-- Join lines as `print` emits them: each line followed by a newline. -/
def joinNLC : List Chars → Chars
  | [] => []
  | l :: ls => l ++ '\n' :: joinNLC ls

/-- Assemble a stdout string from lines, each printed with a trailing
newline. -/
def mkStdout (lines : List Chars) : String := ⟨joinNLC lines⟩

/-- The stdout produced by the structured harness on candidate function `f`
and case list `cases`. -/
def runStructuredStdout (f : PyFun) (cases : List TestCase) (tstr : Chars) : String :=
  mkStdout (structCaseLinesFrom f 0 cases ++
    harnessTailLines (structPassed f cases == cases.length)
      (structPassed f cases) cases.length tstr)

/-! ## Free-form-mode harness semantics (`_build_humaneval_harness`)

The generated program defines counters `__CASE_ID__`, `__NUM_PASSED__`,
`__NUM_TOTAL__`, an instrumented assertion function `__log_assert__`, installs
it as the builtin name `assert_`, runs `check(<function_name>)` inside
`try/except` (printing an `__EXC__=` line when the snippet raises), then
prints `__RESULT__=OK` iff `__NUM_PASSED__ != 0 and
__NUM_PASSED__ == __NUM_TOTAL__`, a counts line and a time line.

The snippet's checking routine is modelled as a list of the assertions it
performs, each either a call to the installed primitive `assert_(cond, msg)`
(which runs `__log_assert__` from the source) or a bare Python `assert cond`
statement (Python semantics: raises `AssertionError` when the condition is
false and otherwise has no effect — the installed builtin plays no part in
executing an `assert` statement). -/

/-- The harness counters. -/
structure FreeState where
  caseId : Nat
  numPassed : Nat
  numTotal : Nat
deriving DecidableEq, Repr

/-- `__CASE__ <id> PASS` / `__CASE__ <id> FAIL <msg or "">` as printed by
`__log_assert__`. -/
def logAssertLine (id : Nat) (cond : Bool) (msg : Option Chars) : Chars :=
  caseMarkerChars ++ ' ' :: pyStrNat id ++
    (if cond then [' ', 'P', 'A', 'S', 'S']
     else [' ', 'F', 'A', 'I', 'L', ' '] ++ msg.getD [])

/-- `__log_assert__(cond, msg)`: bump the id and total counters, bump the
passed counter when `cond` holds, and print one `__CASE__` line. -/
def logAssert (st : FreeState) (cond : Bool) (msg : Option Chars) : FreeState × Chars :=
  let id := st.caseId + 1
  if cond then
    (⟨id, st.numPassed + 1, st.numTotal + 1⟩, logAssertLine id true msg)
  else
    (⟨id, st.numPassed, st.numTotal + 1⟩, logAssertLine id false msg)

/-- One assertion performed by the snippet's checking routine. -/
inductive SnippetStmt where
  | assertCall (cond : Bool) (msg : Option Chars)
  | assertStmt (cond : Bool)

/-- Outcome of running the snippet under the harness: final counters, the
`__CASE__` lines printed, and the uncaught exception (class, message) if the
snippet raised. -/
structure SnippetRun where
  st : FreeState
  lines : List Chars
  exc : Option (Chars × Chars)

/-- Execute the snippet's assertions in order.  An `assert_` call runs
`__log_assert__`; a bare `assert` statement raises `AssertionError` (empty
message) when false, aborting the remaining statements, and is invisible to
the harness counters when true. -/
def runSnippet : List SnippetStmt → FreeState → SnippetRun
  | [], st => ⟨st, [], Option.none⟩
  | .assertCall c m :: rest, st =>
    let (st', line) := logAssert st c m
    let r := runSnippet rest st'
    ⟨r.st, line :: r.lines, r.exc⟩
  | .assertStmt c :: rest, st =>
    if c then runSnippet rest st
    else ⟨st, [],
      some (['A', 's', 's', 'e', 'r', 't', 'i', 'o', 'n', 'E', 'r', 'r', 'o', 'r'], [])⟩

/-- `__EXC__= <type> <message>` as printed by the harness's `except` clause. -/
def excLineChars (ty msg : Chars) : Chars :=
  ['_', '_', 'E', 'X', 'C', '_', '_', '=', ' '] ++ ty ++ ' ' :: msg

/-- The optional exception line. -/
def excLinesOf : Option (Chars × Chars) → List Chars
  | Option.none => []
  | some (ty, m) => [excLineChars ty m]

/-- The stdout produced by the free-form harness when the snippet performs
the given assertions. -/
def runHumanevalStdout (snippet : List SnippetStmt) (tstr : Chars) : String :=
  mkStdout ((runSnippet snippet ⟨0, 0, 0⟩).lines ++
    excLinesOf (runSnippet snippet ⟨0, 0, 0⟩).exc ++
    harnessTailLines
      ((runSnippet snippet ⟨0, 0, 0⟩).st.numPassed != 0 &&
        (runSnippet snippet ⟨0, 0, 0⟩).st.numPassed ==
          (runSnippet snippet ⟨0, 0, 0⟩).st.numTotal)
      (runSnippet snippet ⟨0, 0, 0⟩).st.numPassed
      (runSnippet snippet ⟨0, 0, 0⟩).st.numTotal tstr)

/-! ## Process executors (`run_python`, `run_python_in_docker`)

Both executors write the program text to a fresh scratch directory, spawn
one child process, and classify its outcome.  The interaction with the
operating system is abstracted as a `SubprocOutcome`: the child either
completed with a return code and captured streams, timed out (with whatever
partial streams `TimeoutExpired` carried, possibly none), or a host-side
exception of some class was raised while launching/managing the child.
The executor bodies below mirror the sources' classification of that outcome
into an `ExecResult`; both are total functions — every anticipated failure
becomes a result value, none is re-raised. -/

/-- Outcome of the underlying `subprocess.run` call. -/
inductive SubprocOutcome where
  | completed (returncode : Int) (stdout stderr : String)
  | timedOut (stdout stderr : Option String)
  | hostError (ty msg : String)

/-- `run_python` (src/cs329_hw/run/sandbox.py): classify the subprocess
outcome.  `posix` is `os.name == "posix"` (negative return codes mean signal
death only there); a raised `MemoryError` has its own handler before the
generic one. -/
def run_python (posix : Bool) (outcome : SubprocOutcome) (elapsed : Nat) : ExecResult :=
  match outcome with
  | .completed rc out err =>
    if rc == 0 then ⟨true, out, err, Option.none, elapsed⟩
    else if posix && rc < 0 then
      ⟨false, out, err, some ("signal:" ++ ⟨pyStrInt (-rc)⟩), elapsed⟩
    else
      ⟨false, out, err, some ("returncode:" ++ ⟨pyStrInt rc⟩), elapsed⟩
  | .timedOut out err =>
    ⟨false, out.getD "", err.getD "", some "timeout", elapsed⟩
  | .hostError ty msg =>
    if ty = "MemoryError" then ⟨false, "", "", some "memory_error", elapsed⟩
    else ⟨false, "", msg, some ("exception:" ++ ty), elapsed⟩

/-- `run_python_in_docker` (src/cs329_hw/run/sandbox_docker.py): resolve the
docker binary first — when `shutil.which("docker")` returns `None` the
function returns immediately, before creating the scratch directory or
spawning anything — then classify the subprocess outcome (no platform check
before the signal classification, and no dedicated `MemoryError` handler). -/
def run_python_in_docker (dockerBin : Option String) (outcome : SubprocOutcome)
    (elapsed : Nat) : ExecResult :=
  match dockerBin with
  | Option.none => ⟨false, "", "", some "docker_not_found", elapsed⟩
  | some _ =>
    match outcome with
    | .completed rc out err =>
      if rc == 0 then ⟨true, out, err, Option.none, elapsed⟩
      else if rc < 0 then
        ⟨false, out, err, some ("signal:" ++ ⟨pyStrInt (-rc)⟩), elapsed⟩
      else
        ⟨false, out, err, some ("returncode:" ++ ⟨pyStrInt rc⟩), elapsed⟩
    | .timedOut out err =>
      ⟨false, out.getD "", err.getD "", some "timeout", elapsed⟩
    | .hostError ty msg =>
      ⟨false, "", msg, some ("exception:" ++ ty), elapsed⟩

/-! ## Harness text builders

The exact program texts synthesized by `_build_humaneval_harness` and
`_build_structured_harness` (after `textwrap.dedent` has removed the
template indentation). -/

/-- String form of `pyStrNat`. -/
def natStr (n : Nat) : String := ⟨pyStrNat n⟩

/-- String form of `pyReprChars`. -/
def pyReprStr (v : PyVal) : String := ⟨pyReprChars v⟩

/-- Convert a Lean list of values to the modelled Python list. -/
def toPyList : List PyVal → PyList
  | [] => .lnil
  | v :: rest => .lcons v (toPyList rest)

/-- `repr(tc.args)`: Python repr of the positional-argument list. -/
def argsReprStr (args : List PyVal) : String :=
  pyReprStr (.plist (toPyList args))

/-- The comma-separated `'key': value` entries of a Python dict repr. -/
def kwargsReprInner : List (String × PyVal) → String
  | [] => ""
  | [(k, v)] => ⟨pyStrReprChars k.data⟩ ++ ": " ++ pyReprStr v
  | (k, v) :: rest => ⟨pyStrReprChars k.data⟩ ++ ": " ++ pyReprStr v ++ ", " ++ kwargsReprInner rest

/-- `repr(tc.kwargs)`: Python repr of the keyword-argument dict
(insertion-ordered). -/
def kwargsReprStr (kwargs : List (String × PyVal)) : String :=
  "\x7b" ++ kwargsReprInner kwargs ++ "\x7d"

/-- The marker/instrumentation block `_build_humaneval_harness` appends
after the candidate code and the test snippet (the dedented template, with
`{function_name}` interpolated). -/
def humanevalMarkerBlock (function_name : String) : String :=
  "\nimport builtins, time, traceback\n\n__CASE_ID__ = 0\n__NUM_PASSED__ = 0\n__NUM_TOTAL__ = 0\n\ndef __log_assert__(cond, msg=None):\n    global __CASE_ID__, __NUM_PASSED__, __NUM_TOTAL__\n    __CASE_ID__ += 1\n    __NUM_TOTAL__ += 1\n    if cond:\n        __NUM_PASSED__ += 1\n        print(\"__CASE__\", __CASE_ID__, \"PASS\")\n    else:\n        print(\"__CASE__\", __CASE_ID__, \"FAIL\", msg or \"\")\n\n# So we monkey patch \x27builtins.__dict__\x27 with a helper function\ndef __patched_assert(cond, msg=None, *args):\n    return __log_assert__(cond, msg)\n\nbuiltins.__dict__[\x27assert_\x27] = __patched_assert\n\n__t0 = time.time()\ntry:\n    check(" ++ function_name ++ ")\nexcept Exception as e:\n    print(\"__EXC__=\", type(e).__name__, str(e))\n__elapsed = time.time() - __t0\n\nprint(\"__RESULT__=OK\" if (__NUM_PASSED__ != 0 and __NUM_PASSED__ == __NUM_TOTAL__) else \"__RESULT__=FAIL\")\nprint(\"__COUNTS__=\", __NUM_PASSED__, \"/\", __NUM_TOTAL__)\nprint(\"__TIME__=\", __elapsed)\n"

/-- `_build_humaneval_harness`: candidate code + test snippet + marker
block. -/
def build_humaneval_harness (code function_name test_snippet : String) : String :=
  code ++ "\n\n" ++ test_snippet ++ "\n\n" ++ humanevalMarkerBlock function_name

/-- One per-case guarded block of `_build_structured_harness`'s loop code. -/
def caseBlock (function_name : String) (i : Nat) (tc : TestCase) : String :=
  "try:\n    __res = " ++ function_name ++ "(*" ++ argsReprStr tc.args ++
  ", **" ++ kwargsReprStr tc.kwargs ++ ")\n    __ok = (__res == " ++
  pyReprStr tc.expected ++
  ")\nexcept Exception as __e:\n    __res = f\x27__EXC__:\x7btype(__e).__name__\x7d:\x7b__e\x7d\x27\n    __ok = False\nprint(\x27__CASE__\x27, " ++
  natStr i ++
  ", int(__ok), repr(__res), repr(" ++ pyReprStr tc.expected ++
  "))\nif __ok:\n    __NUM_PASSED__ += 1\n"

/-- The concatenated per-case blocks, in input order. -/
def loopCodeFrom (function_name : String) : Nat → List TestCase → String
  | _, [] => ""
  | i, tc :: rest => caseBlock function_name i tc ++ loopCodeFrom function_name (i + 1) rest

/-- The tail `_build_structured_harness` appends after the candidate code:
counters, the per-case loop code, and the aggregate marker prints. -/
def structuredTail (function_name : String) (cases : List TestCase) : String :=
  "\nimport time\n__NUM_PASSED__ = 0\n__NUM_TOTAL__ = " ++ natStr cases.length ++
  "\n__t0 = time.time()\n" ++ loopCodeFrom function_name 0 cases ++
  "\n__elapsed = time.time() - __t0\n\nprint(\"__RESULT__=OK\" if __NUM_PASSED__ == __NUM_TOTAL__ else \"__RESULT__=FAIL\")\nprint(\"__COUNTS__=\", __NUM_PASSED__, \"/\", __NUM_TOTAL__)\nprint(\"__TIME__=\", __elapsed)\n"

/-- `_build_structured_harness`: candidate code + structured tail. -/
def build_structured_harness (code function_name : String) (cases : List TestCase) : String :=
  code ++ "\n\n" ++ structuredTail function_name cases

/-! ## Verification orchestrator (`HumanEvalVerifier.verify`) -/

/-- The polymorphic `test_suite` argument: a free-form snippet string, a
structured case list, or a value of any other Python type (`other` carries
the name of that type, for the record). -/
inductive TestSuiteArg where
  | snippet (s : String)
  | caseList (l : List TestCase)
  | other (typeName : String)

/-- The result dictionary `verify` returns. -/
structure VerifyResult where
  passed_all : Bool
  num_passed : Int
  num_total : Int
  stdout : String
  stderr : String
  exception : Option String
  time_s : Nat
deriving DecidableEq, Repr

/-- The `TypeError` message raised for an unsupported `test_suite`. -/
def typeErrorMsg : String := "test_suite must be either str or List[TestCase]."

/-- `HumanEvalVerifier.verify`: dispatch on the shape of `test_suite`, build
the matching harness, run it through the injected `runner` exactly once,
parse the markers, and assemble the result dictionary; any other shape
raises `TypeError` (modelled as `Except.error`). -/
def verify (runner : String → ExecResult) (code function_name : String)
    (test_suite : TestSuiteArg) : Except String VerifyResult :=
  match test_suite with
  | .snippet s =>
    let harness := build_humaneval_harness code function_name s
    let result := runner harness
    let pr := parseMarkerSummary result.stdout
    .ok ⟨pr.passedAll, pr.numPassed, pr.numTotal, result.stdout, result.stderr,
      result.exception, result.time_s⟩
  | .caseList l =>
    let harness := build_structured_harness code function_name l
    let result := runner harness
    let pr := parseMarkerSummary result.stdout
    .ok ⟨pr.passedAll, pr.numPassed, pr.numTotal, result.stdout, result.stderr,
      result.exception, result.time_s⟩
  | .other _ => .error typeErrorMsg

/-! ## Statement helpers -/

/-- The payload the parser reads off a stripped line beginning with
`__RESULT__=` (text after the first `=`, stripped); `none` when the stripped
line does not begin with the marker. -/
def extractResult (l : Chars) : Option Chars :=
  let t := pyStrip l
  if resMarker.isPrefixOf t then some (pyStrip (t.drop 11)) else Option.none

/-- The payload of the last explicit result line among `lines`, if any. -/
def lastResultPayload (lines : List Chars) : Option Chars :=
  (lines.filterMap extractResult).getLast?

/-- A line that triggers neither of the parser's two marker branches. -/
def NeutralLine (l : Chars) : Prop :=
  ¬ resMarker.isPrefixOf (pyStrip l) = true ∧ ¬ countsMarker.isPrefixOf (pyStrip l) = true

/-- No line-boundary character occurs in `l`. -/
def LBFree (l : Chars) : Prop := ∀ c ∈ l, isLineBreak c = false

instance decLBFree (l : Chars) : Decidable (LBFree l) :=
  List.decidableBAll _ l

/-- The two integers a well-formed counts line carries: the stripped line
must begin with `__COUNTS__=`, split into exactly two fields around `/`, and
both fields must convert with Python `int()`.  `none` means the line is
missing or malformed (the parser's `except ValueError` path fires somewhere). -/
def countsFields (l : Chars) : Option (Int × Int) :=
  let t := pyStrip l
  if countsMarker.isPrefixOf t then
    match splitSlash (pyStrip (t.drop 11)) with
    | [a, b] =>
      match pyInt (pyStrip a), pyInt (pyStrip b) with
      | some pv, some tv => some (pv, tv)
      | _, _ => Option.none
    | _ => Option.none
  else Option.none

/-- Every message passed to an `assert_` call in the snippet is free of
line-boundary characters (a multi-line message would spread one `__CASE__`
marker over several physical lines). -/
def MsgsLBFree (stmts : List SnippetStmt) : Prop :=
  ∀ c m, SnippetStmt.assertCall c (some m) ∈ stmts → LBFree m

/-! # Theorems -/

/-! ## Decimal rendering and Python `int()` round-trip -/

theorem digitChar_spec (k : Nat) (hk : k < 10) :
    (isDigitB (digitChar k) = true ∧ dval (digitChar k) = k) ∧ isPySpace (digitChar k) = false ∧
    isLineBreak (digitChar k) = false ∧ digitChar k ≠ '/' ∧
    digitChar k ≠ '-' ∧ digitChar k ≠ '+' := by
  interval_cases k <;>
    exact ⟨⟨by decide, by decide⟩, by decide, by decide, by decide, by decide, by decide⟩

theorem pyStrNatAux_shape : ∀ fuel n, n < fuel →
    ∃ k rest, k < 10 ∧ pyStrNatAux fuel n = digitChar k :: rest := by
  intro fuel
  induction fuel with
  | zero => intro n hn; omega
  | succ f ih =>
    intro n hn
    by_cases h10 : n < 10
    · exact ⟨n, [], h10, by simp [pyStrNatAux, h10]⟩
    · have hdiv : n / 10 < f := by
        have h1 : n / 10 < n := Nat.div_lt_self (by omega) (by omega)
        omega
      obtain ⟨k, rest, hk, hs⟩ := ih (n / 10) hdiv
      refine ⟨k, rest ++ [digitChar (n % 10)], hk, ?_⟩
      simp [pyStrNatAux, h10, hs]

theorem pyStrNatAux_mem : ∀ fuel n c, n < fuel → c ∈ pyStrNatAux fuel n →
    ∃ k, k < 10 ∧ c = digitChar k := by
  intro fuel
  induction fuel with
  | zero => intro n c hn; omega
  | succ f ih =>
    intro n c hn hc
    by_cases h10 : n < 10
    · simp [pyStrNatAux, h10] at hc
      exact ⟨n, h10, hc⟩
    · have hdiv : n / 10 < f := by
        have h1 : n / 10 < n := Nat.div_lt_self (by omega) (by omega)
        omega
      simp [pyStrNatAux, h10] at hc
      rcases hc with hc | hc
      · exact ih (n / 10) c hdiv hc
      · exact ⟨n % 10, by omega, hc⟩

theorem pyStrNat_shape (n : Nat) :
    ∃ k rest, k < 10 ∧ pyStrNat n = digitChar k :: rest :=
  pyStrNatAux_shape (n + 1) n (Nat.lt_succ_self n)

theorem pyDigitsGo_cons_digit {c : Char} (hc : isDigitB c = true)
    (es : Chars) (acc : Nat) :
    pyDigitsGo (c :: es) acc = pyDigitsGo es (acc * 10 + dval c) := by
  cases es <;> simp [pyDigitsGo, hc]

theorem pyDigitsGo_strNat_append : ∀ fuel n acc es, n < fuel →
    pyDigitsGo (pyStrNatAux fuel n ++ es) acc =
      pyDigitsGo es (acc * 10 ^ (pyStrNatAux fuel n).length + n) := by
  intro fuel
  induction fuel with
  | zero => intro n acc es hn; omega
  | succ f ih =>
    intro n acc es hn
    by_cases h10 : n < 10
    · have hd := (digitChar_spec n h10).1
      simp [pyStrNatAux, h10, pyDigitsGo_cons_digit hd.1, hd.2]
    · have hdiv : n / 10 < f := by
        have h1 : n / 10 < n := Nat.div_lt_self (by omega) (by omega)
        omega
      have hd := (digitChar_spec (n % 10) (by omega)).1
      simp only [pyStrNatAux, h10, if_false, List.append_assoc, List.cons_append,
        List.nil_append]
      rw [ih (n / 10) acc _ hdiv, pyDigitsGo_cons_digit hd.1, hd.2]
      congr 1
      simp only [List.length_append, List.length_cons, List.length_nil, Nat.zero_add,
        pow_succ]
      have hnm : 10 * (n / 10) + n % 10 = n := Nat.div_add_mod n 10
      have hring : (acc * 10 ^ (pyStrNatAux f (n / 10)).length + n / 10) * 10 + n % 10 =
          acc * (10 ^ (pyStrNatAux f (n / 10)).length * 10) + (10 * (n / 10) + n % 10) := by
        ring
      rw [hring, hnm]

theorem pyDigits_pyStrNat (n : Nat) : pyDigits (pyStrNat n) = some n := by
  obtain ⟨k, rest, hk, hs⟩ := pyStrNat_shape n
  have hgo : pyDigitsGo (pyStrNat n ++ []) 0 = pyDigitsGo [] (0 * 10 ^ (pyStrNat n).length + n) :=
    pyDigitsGo_strNat_append (n + 1) n 0 [] (Nat.lt_succ_self n)
  simp only [List.append_nil, pyDigitsGo, Nat.zero_mul, Nat.zero_add] at hgo
  have hd := (digitChar_spec k hk).1
  rw [hs] at hgo
  rw [hs]
  rw [pyDigitsGo_cons_digit hd.1] at hgo
  simp only [pyDigits, hd.1, if_true]
  simpa [Nat.zero_mul, Nat.zero_add] using hgo

theorem pyInt_pyStrNat (n : Nat) : pyInt (pyStrNat n) = some (n : Int) := by
  obtain ⟨k, rest, hk, hs⟩ := pyStrNat_shape n
  have hd := digitChar_spec k hk
  have hdig := pyDigits_pyStrNat n
  rw [hs] at hdig
  rw [hs]
  simp [pyInt, hd.2.2.2.2.1, hd.2.2.2.2.2, hdig]

theorem pyStrNat_not_space {n : Nat} {c : Char} (hc : c ∈ pyStrNat n) :
    isPySpace c = false := by
  obtain ⟨k, hk, rfl⟩ := pyStrNatAux_mem (n + 1) n c (Nat.lt_succ_self n) hc
  exact (digitChar_spec k hk).2.1

theorem pyStrNat_not_lb {n : Nat} {c : Char} (hc : c ∈ pyStrNat n) :
    isLineBreak c = false := by
  obtain ⟨k, hk, rfl⟩ := pyStrNatAux_mem (n + 1) n c (Nat.lt_succ_self n) hc
  exact (digitChar_spec k hk).2.2.1

theorem pyStrNat_not_slash {n : Nat} {c : Char} (hc : c ∈ pyStrNat n) :
    c ≠ '/' := by
  obtain ⟨k, hk, rfl⟩ := pyStrNatAux_mem (n + 1) n c (Nat.lt_succ_self n) hc
  exact (digitChar_spec k hk).2.2.2.1

theorem pyStrNat_ne_nil (n : Nat) : pyStrNat n ≠ [] := by
  obtain ⟨k, rest, hk, hs⟩ := pyStrNat_shape n
  rw [hs]
  exact List.cons_ne_nil _ _

/-! ## Prefix, substring and strip infrastructure -/

theorem isPrefixOf_append_self : ∀ (p r : Chars), p.isPrefixOf (p ++ r) = true := by
  intro p
  induction p with
  | nil => intro r; simp [List.isPrefixOf]
  | cons c p' ih => intro r; simp [List.isPrefixOf, ih r]

theorem isPrefixOf_ex : ∀ {p l : Chars}, p.isPrefixOf l = true → ∃ r, l = p ++ r := by
  intro p
  induction p with
  | nil => intro l _; exact ⟨l, rfl⟩
  | cons c p' ih =>
    intro l h
    cases l with
    | nil => simp [List.isPrefixOf] at h
    | cons b bs =>
      simp only [List.isPrefixOf, Bool.and_eq_true, beq_iff_eq] at h
      obtain ⟨r, hr⟩ := ih h.2
      exact ⟨r, by rw [h.1, hr]; rfl⟩

theorem containsSub_of_isPrefixOf {p l : Chars} (h : p.isPrefixOf l = true) :
    containsSub p l = true := by
  cases l with
  | nil => simpa [containsSub] using h
  | cons c rest => simp [containsSub, h]

theorem containsSub_of_middle : ∀ (a : Chars) {p : Chars} (b : Chars),
    containsSub p (a ++ p ++ b) = true := by
  intro a
  induction a with
  | nil =>
    intro p b
    exact containsSub_of_isPrefixOf (isPrefixOf_append_self p b)
  | cons c a' ih =>
    intro p b
    simp only [List.cons_append, containsSub, Bool.or_eq_true]
    exact Or.inr (ih b)

theorem dropTrail_decomp (m : Chars) : ∃ b, m = dropTrail m ++ b := by
  refine ⟨(m.reverse.takeWhile isPySpace).reverse, ?_⟩
  have h := List.takeWhile_append_dropWhile (p := isPySpace) (l := m.reverse)
  calc m = m.reverse.reverse := by simp
  _ = (m.reverse.takeWhile isPySpace ++ m.reverse.dropWhile isPySpace).reverse := by rw [h]
  _ = (m.reverse.dropWhile isPySpace).reverse ++ (m.reverse.takeWhile isPySpace).reverse := by
      rw [List.reverse_append]
  _ = dropTrail m ++ (m.reverse.takeWhile isPySpace).reverse := rfl

theorem strip_decomp (l : Chars) : ∃ a b, l = a ++ pyStrip l ++ b := by
  obtain ⟨b, hb⟩ := dropTrail_decomp (l.dropWhile isPySpace)
  refine ⟨l.takeWhile isPySpace, b, ?_⟩
  have h1 : l = l.takeWhile isPySpace ++ l.dropWhile isPySpace :=
    (List.takeWhile_append_dropWhile ..).symm
  have h2 : pyStrip l = dropTrail (l.dropWhile isPySpace) := rfl
  rw [h2, List.append_assoc, ← hb]
  exact h1

theorem containsSub_of_strip_prefixed {p l : Chars}
    (h : p.isPrefixOf (pyStrip l) = true) : containsSub p l = true := by
  obtain ⟨a, b, hab⟩ := strip_decomp l
  obtain ⟨r, hr⟩ := isPrefixOf_ex h
  rw [hab, hr]
  calc containsSub p (a ++ (p ++ r) ++ b) = containsSub p (a ++ p ++ (r ++ b)) := by
        simp [List.append_assoc]
  _ = true := containsSub_of_middle a (r ++ b)

theorem dropTrail_concat_nonspace (l : Chars) (c : Char) (hc : isPySpace c = false) :
    dropTrail (l ++ [c]) = l ++ [c] := by
  unfold dropTrail
  rw [List.reverse_append]
  simp only [List.reverse_cons, List.reverse_nil, List.nil_append, List.cons_append]
  rw [List.dropWhile_cons_of_neg (by simp [hc])]
  simp

theorem dropTrail_append_front (m' : Chars) (c : Char) (hc : isPySpace c = false)
    (r : Chars) : ∃ ys, dropTrail ((m' ++ [c]) ++ r) = (m' ++ [c]) ++ ys := by
  unfold dropTrail
  rw [List.reverse_append, List.dropWhile_append]
  by_cases he : (r.reverse.dropWhile isPySpace).isEmpty
  · refine ⟨[], ?_⟩
    simp only [he, if_true]
    rw [List.reverse_append]
    simp only [List.reverse_cons, List.reverse_nil, List.nil_append, List.cons_append]
    rw [List.dropWhile_cons_of_neg (by simp [hc])]
    simp
  · refine ⟨(r.reverse.dropWhile isPySpace).reverse, ?_⟩
    simp only [he, if_false]
    rw [List.reverse_append]
    simp

theorem pyStrip_concrete_front (a : Chars) (b : Char) (r : Chars)
    (ha : ∀ x ∈ a ++ [b], isPySpace x = false) :
    ∃ ys, pyStrip ((a ++ [b]) ++ r) = (a ++ [b]) ++ ys := by
  unfold pyStrip
  have hfront : ((a ++ [b]) ++ r).dropWhile isPySpace = (a ++ [b]) ++ r := by
    cases a with
    | nil =>
      simp only [List.nil_append, List.cons_append]
      exact List.dropWhile_cons_of_neg (by simp [ha b (by simp)])
    | cons x a' =>
      simp only [List.cons_append]
      exact List.dropWhile_cons_of_neg (by simp [ha x (by simp)])
  rw [hfront]
  exact dropTrail_append_front a b (ha b (by simp)) r

theorem dropTrail_concat_space (l : Chars) (c : Char) (hc : isPySpace c = true) :
    dropTrail (l ++ [c]) = dropTrail l := by
  unfold dropTrail
  rw [List.reverse_append]
  simp only [List.reverse_cons, List.reverse_nil, List.nil_append, List.cons_append]
  rw [List.dropWhile_cons_of_pos (by simp [hc])]

theorem pyStrip_eq_self_shape (c : Char) (mid : Chars) (d : Char)
    (hc : isPySpace c = false) (hd : isPySpace d = false) :
    pyStrip (c :: (mid ++ [d])) = c :: (mid ++ [d]) := by
  unfold pyStrip
  rw [List.dropWhile_cons_of_neg (by simp [hc])]
  exact dropTrail_concat_nonspace (c :: mid) d hd

theorem splitSlash_no_slash : ∀ l : Chars, (∀ c ∈ l, c ≠ '/') → splitSlash l = [l] := by
  intro l
  induction l with
  | nil => intro _; rfl
  | cons c rest ih =>
    intro h
    have hc : ¬ c = '/' := h c (by simp)
    have hr := ih (fun x hx => h x (by simp [hx]))
    simp [splitSlash, hc, hr]

theorem splitSlash_append : ∀ (a b : Chars), (∀ c ∈ a, c ≠ '/') →
    splitSlash (a ++ '/' :: b) = a :: splitSlash b := by
  intro a
  induction a with
  | nil => intro b _; simp [splitSlash]
  | cons c a' ih =>
    intro b h
    have hc : ¬ c = '/' := h c (by simp)
    have hr := ih b (fun x hx => h x (by simp [hx]))
    simp [splitSlash, hc, hr]

/-! ## Marker prefixes on the harness line families -/

theorem res_not_prefix_caseM (ys : Chars) :
    resMarker.isPrefixOf (caseMarkerChars ++ ys) = false := rfl

theorem counts_not_prefix_caseM (ys : Chars) :
    countsMarker.isPrefixOf (caseMarkerChars ++ ys) = false := rfl

theorem res_not_prefix_countsM (ys : Chars) :
    resMarker.isPrefixOf (countsMarker ++ ys) = false := rfl

theorem counts_not_prefix_resM (ys : Chars) :
    countsMarker.isPrefixOf (resMarker ++ ys) = false := rfl

theorem res_not_prefix_timeM (ys : Chars) :
    resMarker.isPrefixOf (['_', '_', 'T', 'I', 'M', 'E', '_', '_', '='] ++ ys) = false := rfl

theorem counts_not_prefix_timeM (ys : Chars) :
    countsMarker.isPrefixOf (['_', '_', 'T', 'I', 'M', 'E', '_', '_', '='] ++ ys) = false := rfl

theorem res_not_prefix_excM (ys : Chars) :
    resMarker.isPrefixOf (['_', '_', 'E', 'X', 'C', '_', '_', '='] ++ ys) = false := rfl

theorem counts_not_prefix_excM (ys : Chars) :
    countsMarker.isPrefixOf (['_', '_', 'E', 'X', 'C', '_', '_', '='] ++ ys) = false := rfl

theorem pyStrip_case_front (r : Chars) :
    ∃ ys, pyStrip (caseMarkerChars ++ r) = caseMarkerChars ++ ys := by
  have h := pyStrip_concrete_front ['_', '_', 'C', 'A', 'S', 'E', '_'] '_' r (by decide)
  simpa [caseMarkerChars] using h

theorem neutral_case (r : Chars) : NeutralLine (caseMarkerChars ++ r) := by
  obtain ⟨ys, hys⟩ := pyStrip_case_front r
  exact ⟨by rw [hys, res_not_prefix_caseM]; simp,
    by rw [hys, counts_not_prefix_caseM]; simp⟩

theorem pyStrip_time_front (r : Chars) :
    ∃ ys, pyStrip (['_', '_', 'T', 'I', 'M', 'E', '_', '_', '='] ++ r) =
      ['_', '_', 'T', 'I', 'M', 'E', '_', '_', '='] ++ ys := by
  have h := pyStrip_concrete_front ['_', '_', 'T', 'I', 'M', 'E', '_', '_'] '=' r (by decide)
  simpa using h

theorem neutral_time (tstr : Chars) : NeutralLine (timeLineChars tstr) := by
  have hshape : timeLineChars tstr =
      ['_', '_', 'T', 'I', 'M', 'E', '_', '_', '='] ++ (' ' :: tstr) := rfl
  obtain ⟨ys, hys⟩ := pyStrip_time_front (' ' :: tstr)
  rw [hshape]
  exact ⟨by rw [hys, res_not_prefix_timeM]; simp,
    by rw [hys, counts_not_prefix_timeM]; simp⟩

theorem pyStrip_exc_front (r : Chars) :
    ∃ ys, pyStrip (['_', '_', 'E', 'X', 'C', '_', '_', '='] ++ r) =
      ['_', '_', 'E', 'X', 'C', '_', '_', '='] ++ ys := by
  have h := pyStrip_concrete_front ['_', '_', 'E', 'X', 'C', '_', '_'] '=' r (by decide)
  simpa using h

theorem neutral_exc (ty msg : Chars) : NeutralLine (excLineChars ty msg) := by
  have hshape : excLineChars ty msg =
      ['_', '_', 'E', 'X', 'C', '_', '_', '='] ++ (' ' :: (ty ++ ' ' :: msg)) := rfl
  obtain ⟨ys, hys⟩ := pyStrip_exc_front (' ' :: (ty ++ ' ' :: msg))
  rw [hshape]
  exact ⟨by rw [hys, res_not_prefix_excM]; simp,
    by rw [hys, counts_not_prefix_excM]; simp⟩

theorem neutral_caseLine (i : Nat) (ok : Bool) (res exp : PyVal) :
    NeutralLine (caseLineChars i ok res exp) := by
  have hshape : caseLineChars i ok res exp = caseMarkerChars ++
      (' ' :: pyStrNat i ++ ' ' :: (if ok then '1' else '0') ::
        ' ' :: pyReprChars res ++ ' ' :: pyReprChars exp) := by
    simp [caseLineChars, List.append_assoc]
  rw [hshape]
  exact neutral_case _

theorem neutral_logAssertLine (id : Nat) (cond : Bool) (msg : Option Chars) :
    NeutralLine (logAssertLine id cond msg) := by
  have hshape : logAssertLine id cond msg = caseMarkerChars ++
      (' ' :: pyStrNat id ++
        (if cond then [' ', 'P', 'A', 'S', 'S']
         else [' ', 'F', 'A', 'I', 'L', ' '] ++ msg.getD [])) := by
    simp [logAssertLine, List.append_assoc]
  rw [hshape]
  exact neutral_case _

/-! ## Evaluating the parser's step on harness lines -/

theorem parseStep_neutral (st : Bool × Int × Int) (l : Chars) (h : NeutralLine l) :
    parseStep st l = st := by
  obtain ⟨h1, h2⟩ := h
  simp only [parseStep]
  rw [if_neg h1, if_neg h2]

theorem parseStep_resLine (st : Bool × Int × Int) (ok : Bool) :
    parseStep st (resLineChars ok) = (ok, st.2.1, st.2.2) := by
  cases ok <;> rfl

theorem parseStep_countsLine (st : Bool × Int × Int) (p t : Nat) :
    parseStep st (countsLineChars p t) = (st.1, (p : Int), (t : Int)) := by
  obtain ⟨kp, rp, hkp, hsp⟩ := pyStrNat_shape p
  obtain ⟨kt, rt, hkt, hst⟩ := pyStrNat_shape t
  have hPne := pyStrNat_ne_nil p
  have hTne := pyStrNat_ne_nil t
  have hT := List.dropLast_append_getLast hTne
  have hP := List.dropLast_append_getLast hPne
  have hdlT : isPySpace ((pyStrNat t).getLast hTne) = false :=
    pyStrNat_not_space (List.getLast_mem hTne)
  have hdlP : isPySpace ((pyStrNat p).getLast hPne) = false :=
    pyStrNat_not_space (List.getLast_mem hPne)
  have hheadP : isPySpace (digitChar kp) = false := (digitChar_spec kp hkp).2.1
  have hheadT : isPySpace (digitChar kt) = false := (digitChar_spec kt hkt).2.1
  -- the whole line strips to itself
  have hshape : countsLineChars p t = '_' ::
      ((['_', 'C', 'O', 'U', 'N', 'T', 'S', '_', '_', '='] ++ ' ' :: pyStrNat p ++
        ' ' :: '/' :: ' ' :: (pyStrNat t).dropLast) ++ [(pyStrNat t).getLast hTne]) := by
    conv_lhs => rw [countsLineChars, ← hT]
    simp [countsMarker, List.append_assoc]
  have hstrip : pyStrip (countsLineChars p t) = countsLineChars p t := by
    conv_lhs => rw [hshape]
    rw [pyStrip_eq_self_shape _ _ _ (by decide) hdlT]
    rw [← hshape]
  have hfront : countsLineChars p t =
      countsMarker ++ (' ' :: (pyStrNat p ++ (' ' :: '/' :: ' ' :: pyStrNat t))) := by
    simp [countsLineChars, List.append_assoc]
  have hres : resMarker.isPrefixOf (countsLineChars p t) = false := by
    rw [hfront]; exact res_not_prefix_countsM _
  have hcounts : countsMarker.isPrefixOf (countsLineChars p t) = true := by
    rw [hfront]; exact isPrefixOf_append_self _ _
  have hdrop : (countsLineChars p t).drop 11 =
      ' ' :: (pyStrNat p ++ (' ' :: '/' :: ' ' :: pyStrNat t)) := by
    rw [hfront]
    have h11 : countsMarker.length = 11 := rfl
    rw [← h11, List.drop_left]
  have htail : pyStrip (' ' :: (pyStrNat p ++ (' ' :: '/' :: ' ' :: pyStrNat t))) =
      pyStrNat p ++ (' ' :: '/' :: ' ' :: pyStrNat t) := by
    unfold pyStrip
    rw [List.dropWhile_cons_of_pos (by decide)]
    rw [hsp, List.cons_append, List.dropWhile_cons_of_neg (by simp [hheadP]), ← List.cons_append,
      ← hsp]
    have hsh : pyStrNat p ++ (' ' :: '/' :: ' ' :: pyStrNat t) =
        (pyStrNat p ++ (' ' :: '/' :: ' ' :: (pyStrNat t).dropLast)) ++
          [(pyStrNat t).getLast hTne] := by
      conv_lhs => rw [← hT]
      simp [List.append_assoc]
    rw [hsh, dropTrail_concat_nonspace _ _ hdlT]
  have hsplit : splitSlash (pyStrNat p ++ (' ' :: '/' :: ' ' :: pyStrNat t)) =
      [pyStrNat p ++ [' '], ' ' :: pyStrNat t] := by
    have hsh : pyStrNat p ++ (' ' :: '/' :: ' ' :: pyStrNat t) =
        (pyStrNat p ++ [' ']) ++ ('/' :: (' ' :: pyStrNat t)) := by
      simp [List.append_assoc]
    rw [hsh, splitSlash_append]
    · rw [splitSlash_no_slash]
      intro c hc
      rcases List.mem_cons.mp hc with rfl | hc2
      · decide
      · exact pyStrNat_not_slash hc2
    · intro c hc
      rcases List.mem_append.mp hc with hc1 | hc2
      · exact pyStrNat_not_slash hc1
      · simp at hc2; rw [hc2]; decide
  have hf1 : pyStrip (pyStrNat p ++ [' ']) = pyStrNat p := by
    unfold pyStrip
    rw [hsp, List.cons_append, List.dropWhile_cons_of_neg (by simp [hheadP]), ← List.cons_append,
      ← hsp]
    rw [dropTrail_concat_space _ _ (by decide)]
    conv_lhs => rw [← hP]
    rw [dropTrail_concat_nonspace _ _ hdlP]
    exact hP
  have hf2 : pyStrip (' ' :: pyStrNat t) = pyStrNat t := by
    unfold pyStrip
    rw [List.dropWhile_cons_of_pos (by decide)]
    rw [hst, List.dropWhile_cons_of_neg (by simp [hheadT]), ← hst]
    conv_lhs => rw [← hT]
    rw [dropTrail_concat_nonspace _ _ hdlT]
    exact hT
  simp only [parseStep]
  rw [hstrip, if_neg (by simp [hres]), if_pos hcounts, hdrop, htail, hsplit]
  simp only [hf1, hf2, pyInt_pyStrNat]

theorem foldl_parseStep_neutral : ∀ (ls : List Chars) (st : Bool × Int × Int),
    (∀ l ∈ ls, NeutralLine l) → List.foldl parseStep st ls = st := by
  intro ls
  induction ls with
  | nil => intro st _; rfl
  | cons l ls' ih =>
    intro st h
    rw [List.foldl_cons, parseStep_neutral st l (h l (by simp))]
    exact ih st (fun x hx => h x (by simp [hx]))

theorem foldl_parseStep_tail (st : Bool × Int × Int) (ok : Bool) (p t : Nat) (tstr : Chars) :
    List.foldl parseStep st (harnessTailLines ok p t tstr) = (ok, (p : Int), (t : Int)) := by
  simp only [harnessTailLines, List.foldl_cons, List.foldl_nil]
  rw [parseStep_resLine, parseStep_countsLine]
  exact parseStep_neutral _ _ (neutral_time tstr)

/-! ## Splitting the harness output back into lines -/

set_option maxHeartbeats 1000000 in
theorem splitlinesAux_append_line : ∀ (l rest cur : Chars), LBFree l →
    splitlinesAux (l ++ '\n' :: rest) cur = (cur.reverse ++ l) :: splitlinesAux rest [] := by
  intro l
  induction l with
  | nil =>
    intro rest cur _
    simp only [List.nil_append, List.append_nil]
    rfl
  | cons c l' ih =>
    intro rest cur hl
    have hc : isLineBreak c = false := hl c (by simp)
    have hcr : ¬ c = '\r' := by
      intro he
      rw [he] at hc
      exact absurd hc (by decide)
    rw [List.cons_append, splitlinesAux.eq_def]
    split
    · rename_i heq
      exact absurd heq (by simp)
    · rename_i heq
      exact absurd (List.cons.inj heq).1 hcr
    · rename_i cur3 x2 x1 c2 rest2 hno heq
      obtain ⟨hc2, hrest2⟩ := List.cons.inj heq
      subst hc2
      subst hrest2
      rw [if_neg (by simp [hc])]
      rw [ih rest (c :: cur3) (fun x hx => hl x (by simp [hx]))]
      simp

theorem splitlinesAux_joinNLC : ∀ lines : List Chars, (∀ l ∈ lines, LBFree l) →
    splitlinesAux (joinNLC lines) [] = lines := by
  intro lines
  induction lines with
  | nil => intro _; rfl
  | cons l ls ih =>
    intro h
    show splitlinesAux (l ++ '\n' :: joinNLC ls) [] = l :: ls
    rw [splitlinesAux_append_line l _ [] (h l (by simp))]
    rw [ih (fun x hx => h x (by simp [hx]))]
    simp

theorem linesOf_mkStdout (lines : List Chars) (h : ∀ l ∈ lines, LBFree l) :
    linesOf (mkStdout lines) = lines := by
  unfold linesOf mkStdout
  exact splitlinesAux_joinNLC lines h

/-! ## The parse of a complete harness output -/

theorem containsSub_resLine (ok : Bool) : containsSub resMarker (resLineChars ok) = true :=
  containsSub_of_isPrefixOf (isPrefixOf_append_self _ _)

/-! ## Line-break freedom of the harness's printed lines -/

theorem LBFree_iff (l : Chars) : LBFree l ↔ l.all (fun c => !isLineBreak c) = true := by
  simp [LBFree, List.all_eq_true]

theorem mem_two {x a b : Char} (hx : x ∈ ([a, b] : Chars)) : x = a ∨ x = b := by
  simpa using hx

theorem mem_four {x a b c d : Char} (hx : x ∈ ([a, b, c, d] : Chars)) :
    x = a ∨ x = b ∨ x = c ∨ x = d := by
  simpa using hx

theorem mem_six {x a b c d e f : Char} (hx : x ∈ ([a, b, c, d, e, f] : Chars)) :
    x = a ∨ x = b ∨ x = c ∨ x = d ∨ x = e ∨ x = f := by
  simpa using hx

theorem hexDigitChar_not_lb (n : Nat) (h : n ≤ 15) : isLineBreak (hexDigitChar n) = false := by
  interval_cases n <;> decide

theorem pyEscChar_not_lb (q : Char) (hq : isLineBreak q = false) (c : Char) :
    ∀ x ∈ pyEscChar q c, isLineBreak x = false := by
  intro x hx
  unfold pyEscChar at hx
  split_ifs at hx with h1 h2 h3 h4 h5 h6 h7
  · rcases mem_two hx with rfl | rfl <;> decide
  · rcases mem_two hx with rfl | rfl
    · decide
    · exact hq
  · rcases mem_two hx with rfl | rfl <;> decide
  · rcases mem_two hx with rfl | rfl <;> decide
  · rcases mem_two hx with rfl | rfl <;> decide
  · rcases mem_four hx with rfl | rfl | rfl | rfl
    · decide
    · decide
    · exact hexDigitChar_not_lb _ (by omega)
    · exact hexDigitChar_not_lb _ (by omega)
  · rcases mem_six hx with rfl | rfl | rfl | rfl | rfl | rfl
    · decide
    · decide
    · exact hexDigitChar_not_lb _ (by omega)
    · exact hexDigitChar_not_lb _ (by omega)
    · exact hexDigitChar_not_lb _ (by omega)
    · exact hexDigitChar_not_lb _ (by omega)
  · -- the character is kept unescaped: it is none of the line-break characters
    simp only [List.mem_singleton] at hx
    subst hx
    have hlt : ¬ x.toNat < 32 := fun h => h6 (by simp [h])
    have hmid : ¬ (128 ≤ x.toNat ∧ x.toNat ≤ 160) := by
      rintro ⟨ha, hb⟩
      exact h6 (by simp [ha, hb])
    have h2028 : x.toNat ≠ 8232 := fun h => h6 (by simp [h])
    have h2029 : x.toNat ≠ 8233 := fun h => h6 (by simp [h])
    by_contra hbad
    have hlb : isLineBreak x = true := by
      rcases Bool.eq_false_or_eq_true (isLineBreak x) with h | h
      · exact h
      · exact absurd h hbad
    simp only [isLineBreak, Bool.or_eq_true, decide_eq_true_eq] at hlb
    rcases hlb with ((((((((h | h) | h) | h) | h) | h) | h) | h) | h) | h
    · exact hlt (by rw [h]; decide)
    · exact hlt (by rw [h]; decide)
    · exact hlt (by omega)
    · exact hlt (by omega)
    · exact hlt (by omega)
    · exact hlt (by omega)
    · exact hlt (by omega)
    · exact hmid (by omega)
    · exact h2028 h
    · exact h2029 h

theorem pyStrRepr_not_lb (s : Chars) : ∀ c ∈ pyStrReprChars s, isLineBreak c = false := by
  intro c hc
  unfold pyStrReprChars at hc
  set q := if s.contains '\'' && !s.contains '"' then '"' else '\'' with hqdef
  have hq' : isLineBreak q = false := by
    rw [hqdef]
    split_ifs <;> decide
  rcases List.mem_cons.mp hc with rfl | hc2
  · exact hq'
  rcases List.mem_append.mp hc2 with hc3 | hc3
  · rw [List.mem_flatten] at hc3
    obtain ⟨piece, hpiece, hcp⟩ := hc3
    rw [List.mem_map] at hpiece
    obtain ⟨ch, _, rfl⟩ := hpiece
    exact pyEscChar_not_lb q hq' ch c hcp
  · rw [List.mem_singleton] at hc3
    subst hc3
    exact hq'

theorem pyStrInt_not_lb (n : Int) : ∀ c ∈ pyStrInt n, isLineBreak c = false := by
  intro c hc
  unfold pyStrInt at hc
  split_ifs at hc
  · rcases List.mem_cons.mp hc with rfl | hc2
    · decide
    · exact pyStrNat_not_lb hc2
  · exact pyStrNat_not_lb hc

theorem all_noLB_pyStrNat (n : Nat) :
    (pyStrNat n).all (fun c => !isLineBreak c) = true := by
  rw [List.all_eq_true]
  intro c hc
  simp [pyStrNat_not_lb hc]

theorem all_noLB_pyStrInt (n : Int) :
    (pyStrInt n).all (fun c => !isLineBreak c) = true := by
  rw [List.all_eq_true]
  intro c hc
  simp [pyStrInt_not_lb n c hc]

theorem all_noLB_pyStrRepr (s : Chars) :
    (pyStrReprChars s).all (fun c => !isLineBreak c) = true := by
  rw [List.all_eq_true]
  intro c hc
  simp [pyStrRepr_not_lb s c hc]

mutual
theorem all_noLB_pyRepr : ∀ v : PyVal,
    (pyReprChars v).all (fun c => !isLineBreak c) = true
  | .pnone => by decide
  | .pbool true => by decide
  | .pbool false => by decide
  | .pint n => all_noLB_pyStrInt n
  | .pstr s => all_noLB_pyStrRepr s
  | .plist l => by
    simp only [pyReprChars, List.all_cons, List.all_append, all_noLB_pyReprList l,
      Bool.and_true, Bool.true_and]
    decide
theorem all_noLB_pyReprList : ∀ l : PyList,
    (pyReprList l).all (fun c => !isLineBreak c) = true
  | .lnil => by decide
  | .lcons v .lnil => all_noLB_pyRepr v
  | .lcons v (.lcons w tl) => by
    simp only [pyReprList, List.all_cons, List.all_append, all_noLB_pyRepr v,
      all_noLB_pyReprList (.lcons w tl), Bool.and_true, Bool.true_and]
    decide
end

theorem pyReprChars_not_lb (v : PyVal) (c : Char) (hc : c ∈ pyReprChars v) :
    isLineBreak c = false := by
  have h := List.all_eq_true.mp (all_noLB_pyRepr v) c hc
  simpa using h

theorem caseLine_lbfree (i : Nat) (ok : Bool) (res exp : PyVal) :
    LBFree (caseLineChars i ok res exp) := by
  rw [LBFree_iff]
  cases ok <;>
    simp only [caseLineChars, caseMarkerChars, List.cons_append, List.nil_append,
      List.all_append, List.all_cons, all_noLB_pyStrNat, all_noLB_pyRepr,
      Bool.and_eq_true, Bool.and_true, Bool.true_and] <;>
    decide

theorem resLine_lbfree (ok : Bool) : LBFree (resLineChars ok) := by
  rw [LBFree_iff]
  cases ok <;> decide

theorem countsLine_lbfree (p t : Nat) : LBFree (countsLineChars p t) := by
  rw [LBFree_iff]
  simp only [countsLineChars, countsMarker, List.cons_append, List.nil_append,
    List.all_append, List.all_cons, all_noLB_pyStrNat,
    Bool.and_eq_true, Bool.and_true, Bool.true_and]
  decide

theorem timeLine_lbfree (tstr : Chars) (ht : LBFree tstr) : LBFree (timeLineChars tstr) := by
  rw [LBFree_iff] at ht ⊢
  simp only [timeLineChars, List.cons_append, List.nil_append,
    List.all_append, List.all_cons, ht,
    Bool.and_eq_true, Bool.and_true, Bool.true_and]
  decide

theorem harnessTail_lbfree (ok : Bool) (p t : Nat) (tstr : Chars) (ht : LBFree tstr) :
    ∀ l ∈ harnessTailLines ok p t tstr, LBFree l := by
  intro l hl
  simp only [harnessTailLines, List.mem_cons, List.not_mem_nil, or_false] at hl
  rcases hl with rfl | rfl | rfl
  · exact resLine_lbfree ok
  · exact countsLine_lbfree p t
  · exact timeLine_lbfree tstr ht

theorem parseLinesC_harness (body : List Chars) (hb : ∀ l ∈ body, NeutralLine l)
    (ok : Bool) (p t : Nat) (tstr : Chars) :
    parseLinesC (body ++ harnessTailLines ok p t tstr) =
      ⟨ok, (p : Int), (t : Int)⟩ := by
  unfold parseLinesC
  have hfold : List.foldl parseStep (false, 0, 0) (body ++ harnessTailLines ok p t tstr) =
      (ok, (p : Int), (t : Int)) := by
    rw [List.foldl_append, foldl_parseStep_neutral body _ hb, foldl_parseStep_tail]
  have hseen : (body ++ harnessTailLines ok p t tstr).any
      (fun l => containsSub resMarker l) = true := by
    rw [List.any_eq_true]
    refine ⟨resLineChars ok, ?_, containsSub_resLine ok⟩
    exact List.mem_append_right _ (by simp [harnessTailLines])
  rw [hfold, hseen]
  simp


/-! ## The harness body lines, collectively -/

theorem structCaseLines_shape : ∀ (f : PyFun) (i : Nat) (cases : List TestCase) (l : Chars),
    l ∈ structCaseLinesFrom f i cases →
    ∃ j tc, l = caseLineChars j (runCase f tc).2 (runCase f tc).1 tc.expected := by
  intro f i cases
  induction cases generalizing i with
  | nil => intro l hl; simp [structCaseLinesFrom] at hl
  | cons tc rest ih =>
    intro l hl
    rcases List.mem_cons.mp hl with rfl | hl2
    · exact ⟨i, tc, rfl⟩
    · exact ih (i + 1) l hl2

theorem structCaseLines_neutral (f : PyFun) (i : Nat) (cases : List TestCase) :
    ∀ l ∈ structCaseLinesFrom f i cases, NeutralLine l := by
  intro l hl
  obtain ⟨j, tc, rfl⟩ := structCaseLines_shape f i cases l hl
  exact neutral_caseLine _ _ _ _

theorem structCaseLines_lbfree (f : PyFun) (i : Nat) (cases : List TestCase) :
    ∀ l ∈ structCaseLinesFrom f i cases, LBFree l := by
  intro l hl
  obtain ⟨j, tc, rfl⟩ := structCaseLines_shape f i cases l hl
  exact caseLine_lbfree _ _ _ _

theorem structCaseLines_length : ∀ (f : PyFun) (i : Nat) (cases : List TestCase),
    (structCaseLinesFrom f i cases).length = cases.length := by
  intro f i cases
  induction cases generalizing i with
  | nil => rfl
  | cons tc rest ih => simp [structCaseLinesFrom, ih]

theorem structCaseLines_get : ∀ (f : PyFun) (cases : List TestCase) (i j : Nat)
    (tc : TestCase), cases[j]? = some tc →
    (structCaseLinesFrom f i cases)[j]? =
      some (caseLineChars (i + j) (runCase f tc).2 (runCase f tc).1 tc.expected) := by
  intro f cases
  induction cases with
  | nil => intro i j tc h; simp at h
  | cons tc0 rest ih =>
    intro i j tc h
    cases j with
    | zero =>
      simp only [List.getElem?_cons_zero, Option.some.injEq] at h
      subst h
      simp [structCaseLinesFrom]
    | succ j' =>
      simp only [List.getElem?_cons_succ] at h
      have := ih (i + 1) j' tc h
      simp only [structCaseLinesFrom, List.getElem?_cons_succ]
      rw [this]
      congr 2
      omega

/-! ## The structured harness output, parsed -/

theorem parse_runStructured (f : PyFun) (cases : List TestCase) (tstr : Chars)
    (ht : LBFree tstr) :
    parseMarkerSummary (runStructuredStdout f cases tstr) =
      ⟨structPassed f cases == cases.length, (structPassed f cases : Int),
        (cases.length : Int)⟩ := by
  unfold parseMarkerSummary runStructuredStdout
  rw [linesOf_mkStdout]
  · exact parseLinesC_harness _ (structCaseLines_neutral f 0 cases) _ _ _ _
  · intro l hl
    rcases List.mem_append.mp hl with hb | htl
    · exact structCaseLines_lbfree f 0 cases l hb
    · exact harnessTail_lbfree _ _ _ _ ht l htl

theorem linesOf_runStructured (f : PyFun) (cases : List TestCase) (tstr : Chars)
    (ht : LBFree tstr) :
    linesOf (runStructuredStdout f cases tstr) =
      structCaseLinesFrom f 0 cases ++
        harnessTailLines (structPassed f cases == cases.length)
          (structPassed f cases) cases.length tstr := by
  unfold runStructuredStdout
  rw [linesOf_mkStdout]
  intro l hl
  rcases List.mem_append.mp hl with hb | htl
  · exact structCaseLines_lbfree f 0 cases l hb
  · exact harnessTail_lbfree _ _ _ _ ht l htl

/-! ## The free-form harness output, parsed -/

theorem logAssert_eq (st : FreeState) (cond : Bool) (msg : Option Chars) :
    logAssert st cond msg =
      (⟨st.caseId + 1, st.numPassed + (if cond then 1 else 0), st.numTotal + 1⟩,
        logAssertLine (st.caseId + 1) cond msg) := by
  cases cond <;> simp [logAssert]

theorem runSnippet_lines_shape : ∀ (stmts : List SnippetStmt) (st : FreeState),
    ∀ l ∈ (runSnippet stmts st).lines, ∃ id cond msg, l = logAssertLine id cond msg := by
  intro stmts
  induction stmts with
  | nil => intro st l hl; simp [runSnippet] at hl
  | cons s rest ih =>
    intro st l hl
    cases s with
    | assertCall c m =>
      rw [runSnippet] at hl
      rw [logAssert_eq] at hl
      simp only [List.mem_cons] at hl
      rcases hl with rfl | hl2
      · exact ⟨st.caseId + 1, c, m, rfl⟩
      · exact ih _ l hl2
    | assertStmt c =>
      rw [runSnippet] at hl
      by_cases hc : c
      · rw [if_pos hc] at hl
        exact ih st l hl
      · rw [if_neg hc] at hl
        simp at hl

theorem runSnippet_exc_cases : ∀ (stmts : List SnippetStmt) (st : FreeState),
    (runSnippet stmts st).exc = Option.none ∨
    (runSnippet stmts st).exc =
      some (['A', 's', 's', 'e', 'r', 't', 'i', 'o', 'n', 'E', 'r', 'r', 'o', 'r'], []) := by
  intro stmts
  induction stmts with
  | nil => intro st; left; rfl
  | cons s rest ih =>
    intro st
    cases s with
    | assertCall c m =>
      rw [runSnippet]
      exact ih _
    | assertStmt c =>
      rw [runSnippet]
      by_cases hc : c
      · rw [if_pos hc]; exact ih st
      · rw [if_neg hc]; right; rfl

theorem excLines_neutral (e : Option (Chars × Chars)) :
    ∀ l ∈ excLinesOf e, NeutralLine l := by
  intro l hl
  cases e with
  | none => simp [excLinesOf] at hl
  | some p =>
    simp only [excLinesOf, List.mem_singleton] at hl
    subst hl
    exact neutral_exc p.1 p.2

theorem runHumanevalBody_neutral (stmts : List SnippetStmt) (st : FreeState) :
    ∀ l ∈ (runSnippet stmts st).lines ++ excLinesOf (runSnippet stmts st).exc,
      NeutralLine l := by
  intro l hl
  rcases List.mem_append.mp hl with h | h
  · obtain ⟨id, cond, msg, rfl⟩ := runSnippet_lines_shape stmts st l h
    exact neutral_logAssertLine id cond msg
  · exact excLines_neutral _ l h

theorem logAssertLine_lbfree (id : Nat) (cond : Bool) (msg : Option Chars)
    (hm : LBFree (msg.getD [])) : LBFree (logAssertLine id cond msg) := by
  rw [LBFree_iff] at hm ⊢
  cases cond <;>
    simp [logAssertLine, caseMarkerChars, List.all_append, List.all_cons,
      all_noLB_pyStrNat, hm] <;>
    decide

theorem runSnippet_lines_lbfree : ∀ (stmts : List SnippetStmt) (st : FreeState),
    MsgsLBFree stmts → ∀ l ∈ (runSnippet stmts st).lines, LBFree l := by
  intro stmts
  induction stmts with
  | nil => intro st _ l hl; simp [runSnippet] at hl
  | cons s rest ih =>
    intro st hm l hl
    have hmrest : MsgsLBFree rest := fun c m hmem => hm c m (by simp [hmem])
    cases s with
    | assertCall c m =>
      rw [runSnippet] at hl
      rw [logAssert_eq] at hl
      simp only [List.mem_cons] at hl
      rcases hl with rfl | hl2
      · refine logAssertLine_lbfree _ _ _ ?_
        cases m with
        | none => intro x hx; simp at hx
        | some msg =>
          have := hm c msg (by simp)
          simpa using this
      · exact ih _ hmrest l hl2
    | assertStmt c =>
      rw [runSnippet] at hl
      by_cases hc : c
      · rw [if_pos hc] at hl
        exact ih st hmrest l hl
      · rw [if_neg hc] at hl
        simp at hl

theorem excLines_lbfree (stmts : List SnippetStmt) (st : FreeState) :
    ∀ l ∈ excLinesOf (runSnippet stmts st).exc, LBFree l := by
  intro l hl
  rcases runSnippet_exc_cases stmts st with h | h <;> rw [h] at hl
  · simp [excLinesOf] at hl
  · simp only [excLinesOf, List.mem_singleton] at hl
    subst hl
    rw [LBFree_iff]
    decide

theorem parse_runHumaneval (snippet : List SnippetStmt) (tstr : Chars)
    (ht : LBFree tstr) (hm : MsgsLBFree snippet) :
    parseMarkerSummary (runHumanevalStdout snippet tstr) =
      ⟨(runSnippet snippet ⟨0, 0, 0⟩).st.numPassed != 0 &&
        (runSnippet snippet ⟨0, 0, 0⟩).st.numPassed ==
          (runSnippet snippet ⟨0, 0, 0⟩).st.numTotal,
        ((runSnippet snippet ⟨0, 0, 0⟩).st.numPassed : Int),
        ((runSnippet snippet ⟨0, 0, 0⟩).st.numTotal : Int)⟩ := by
  unfold parseMarkerSummary runHumanevalStdout
  rw [linesOf_mkStdout]
  · exact parseLinesC_harness _ (runHumanevalBody_neutral snippet ⟨0, 0, 0⟩) _ _ _ _
  · intro l hl
    rcases List.mem_append.mp hl with hb | htl
    · rcases List.mem_append.mp hb with h1 | h1
      · exact runSnippet_lines_lbfree snippet _ hm l h1
      · exact excLines_lbfree snippet _ l h1
    · exact harnessTail_lbfree _ _ _ _ ht l htl

/-! ## How `passed_all` is computed from the result lines -/

theorem parseStep_fst (st : Bool × Int × Int) (l : Chars) :
    (parseStep st l).1 =
      match extractResult l with
      | some pay => pay == okChars
      | Option.none => st.1 := by
  unfold parseStep extractResult
  by_cases h1 : resMarker.isPrefixOf (pyStrip l) = true
  · rw [if_pos h1, if_pos h1]
  · rw [if_neg h1, if_neg h1]
    by_cases h2 : countsMarker.isPrefixOf (pyStrip l) = true
    · rw [if_pos h2]
      split
      · split
        · rfl
        · split <;> rfl
      · rfl
    · rw [if_neg h2]

theorem foldl_parseStep_passedAll : ∀ (lines : List Chars) (st : Bool × Int × Int),
    (List.foldl parseStep st lines).1 =
      match lastResultPayload lines with
      | some pay => pay == okChars
      | Option.none => st.1 := by
  intro lines
  induction lines with
  | nil => intro st; rfl
  | cons l ls ih =>
    intro st
    rw [List.foldl_cons, ih]
    unfold lastResultPayload
    cases he : extractResult l with
    | none =>
      rw [List.filterMap_cons_none he]
      have hstep : (parseStep st l).1 = st.1 := by rw [parseStep_fst, he]
      cases hlast : (List.filterMap extractResult ls).getLast? <;> simp [hstep]
    | some pay =>
      rw [List.filterMap_cons_some he]
      cases hlast : (List.filterMap extractResult ls).getLast? with
      | none =>
        have hnil : List.filterMap extractResult ls = [] :=
          List.getLast?_eq_none_iff.mp hlast
        rw [hnil]
        have hstep : (parseStep st l).1 = (pay == okChars) := by rw [parseStep_fst, he]
        simp [hstep, List.getLast?]
      | some pay2 =>
        have hne : List.filterMap extractResult ls ≠ [] := by
          intro hnil
          rw [hnil] at hlast
          simp [List.getLast?] at hlast
        cases hfm : List.filterMap extractResult ls with
        | nil => exact absurd hfm hne
        | cons x xs =>
          have hg : (pay :: x :: xs).getLast? = some pay2 := by
            rw [show (pay :: x :: xs).getLast? = (x :: xs).getLast? from rfl, ← hfm]
            exact hlast
          rw [hg]

theorem extractResult_eq_none_of_not_contains (l : Chars)
    (h : containsSub resMarker l = false) : extractResult l = Option.none := by
  unfold extractResult
  rw [if_neg]
  intro hp
  rw [containsSub_of_strip_prefixed hp] at h
  exact absurd h (by simp)

theorem seen_of_lastResultPayload (lines : List Chars) (pay : Chars)
    (h : lastResultPayload lines = some pay) :
    (lines.any fun l => containsSub resMarker l) = true := by
  have hex : ∃ l ∈ lines, ¬ extractResult l = Option.none := by
    by_contra hno
    push_neg at hno
    have hnil : List.filterMap extractResult lines = [] := by
      rw [List.filterMap_eq_nil_iff]
      exact hno
    unfold lastResultPayload at h
    rw [hnil] at h
    simp [List.getLast?] at h
  obtain ⟨l, hl, hne⟩ := hex
  rw [List.any_eq_true]
  refine ⟨l, hl, ?_⟩
  by_cases hp : resMarker.isPrefixOf (pyStrip l) = true
  · exact containsSub_of_strip_prefixed hp
  · exfalso
    apply hne
    unfold extractResult
    rw [if_neg hp]

theorem passedAll_of_lastResultPayload (s : String) (pay : Chars)
    (h : lastResultPayload (linesOf s) = some pay) :
    (parseMarkerSummary s).passedAll = (pay == okChars) := by
  unfold parseMarkerSummary parseLinesC
  have hseen := seen_of_lastResultPayload (linesOf s) pay h
  have hfold := foldl_parseStep_passedAll (linesOf s) (false, 0, 0)
  rw [h] at hfold
  simp only [hseen]
  rw [if_neg (by simp)]
  exact hfold

theorem not_res_of_counts {l : Chars} (h : countsMarker.isPrefixOf l = true) :
    resMarker.isPrefixOf l = false := by
  obtain ⟨ys, rfl⟩ := isPrefixOf_ex h
  exact res_not_prefix_countsM ys

theorem parseStep_malformed_skip (st : Bool × Int × Int) (m : Chars)
    (h2 : countsMarker.isPrefixOf (pyStrip m) = true)
    (h3 : match splitSlash (pyStrip ((pyStrip m).drop 11)) with
      | [a, _] => pyInt (pyStrip a) = Option.none
      | _ => True) :
    parseStep st m = st := by
  unfold parseStep
  rw [if_neg (by simp [not_res_of_counts h2]), if_pos h2]
  split
  · rename_i a b heq
    rw [heq] at h3
    rw [h3]
  · rfl

theorem parseStep_counts_partial (st : Bool × Int × Int) (m : Chars) (a b : Chars)
    (pv : Int)
    (h2 : countsMarker.isPrefixOf (pyStrip m) = true)
    (hsplit : splitSlash (pyStrip ((pyStrip m).drop 11)) = [a, b])
    (hleft : pyInt (pyStrip a) = some pv)
    (hright : pyInt (pyStrip b) = Option.none) :
    parseStep st m = (st.1, pv, st.2.2) := by
  unfold parseStep
  rw [if_neg (by simp [not_res_of_counts h2]), if_pos h2]
  simp only [hsplit, hleft, hright]

/-! # Claim theorems -/

/-- C1: An explicit `__RESULT__` line has absolute precedence: whenever some
stripped line of the stdout begins with `__RESULT__=`, `passed_all` is taken
from (the last) such line — it equals the comparison of that line's payload
with `OK`, regardless of the parsed `__COUNTS__` values; and only when no
line of the output contains `__RESULT__=` anywhere does the parser, for
`num_total > 0`, infer `passed_all = (num_passed == num_total)`. -/
theorem c1_result_line_precedence (s : String) :
    (∀ pay, lastResultPayload (linesOf s) = some pay →
      (parseMarkerSummary s).passedAll = (pay == okChars)) ∧
    ((∀ l ∈ linesOf s, containsSub resMarker l = false) →
      0 < (parseMarkerSummary s).numTotal →
      (parseMarkerSummary s).passedAll =
        ((parseMarkerSummary s).numPassed == (parseMarkerSummary s).numTotal)) := by
  constructor
  · intro pay h
    exact passedAll_of_lastResultPayload s pay h
  · intro hnone ht
    have hnores : ∀ l ∈ linesOf s, extractResult l = Option.none := fun l hl =>
      extractResult_eq_none_of_not_contains l (hnone l hl)
    have hseen : ((linesOf s).any fun l => containsSub resMarker l) = false := by
      rw [List.any_eq_false]
      intro l hl
      simp [hnone l hl]
    unfold parseMarkerSummary parseLinesC at ht ⊢
    simp only [hseen] at ht ⊢
    rw [if_pos]
    constructor
    · exact ht
    · simp

/-- C1 witness: with stdout `__RESULT__=FAIL` + `__COUNTS__= 2 / 2`, the
explicit line wins (passed_all is false although the counts agree); with
only `__COUNTS__= 2 / 2`, the counts-based inference fires. -/
theorem c1_result_line_precedence_witness :
    (parseMarkerSummary "__RESULT__=FAIL\n__COUNTS__= 2 / 2\n").passedAll =
      (['F', 'A', 'I', 'L'] == okChars) ∧
    (parseMarkerSummary "__COUNTS__= 2 / 2\n").passedAll =
      ((parseMarkerSummary "__COUNTS__= 2 / 2\n").numPassed ==
        (parseMarkerSummary "__COUNTS__= 2 / 2\n").numTotal) :=
  ⟨(c1_result_line_precedence "__RESULT__=FAIL\n__COUNTS__= 2 / 2\n").1
      ['F', 'A', 'I', 'L'] (by decide),
    (c1_result_line_precedence "__COUNTS__= 2 / 2\n").2 (by decide) (by decide)⟩

/-- C8: when `__RESULT__=` occurs only mid-line (no stripped line begins
with it), the parser still counts a result line as seen, so the counts-based
inference is suppressed and `passed_all` stays false. -/
theorem c8_midline_result_suppresses_inference (s : String)
    (h1 : ∃ l ∈ linesOf s, containsSub resMarker l = true)
    (h2 : ∀ l ∈ linesOf s, resMarker.isPrefixOf (pyStrip l) = false) :
    (parseMarkerSummary s).passedAll = false := by
  have hnores : ∀ l ∈ linesOf s, extractResult l = Option.none := by
    intro l hl
    unfold extractResult
    rw [if_neg (by simp [h2 l hl])]
  have hlast : lastResultPayload (linesOf s) = Option.none := by
    unfold lastResultPayload
    have : List.filterMap extractResult (linesOf s) = [] := by
      rw [List.filterMap_eq_nil_iff]
      exact hnores
    rw [this]
    rfl
  have hfold := foldl_parseStep_passedAll (linesOf s) (false, 0, 0)
  rw [hlast] at hfold
  have hseen : ((linesOf s).any fun l => containsSub resMarker l) = true := by
    rw [List.any_eq_true]
    obtain ⟨l, hl, hc⟩ := h1
    exact ⟨l, hl, hc⟩
  unfold parseMarkerSummary parseLinesC
  simp only [hseen]
  rw [if_neg (by simp)]
  exact hfold

/-- C8 witness: `x __RESULT__=OK` mid-line plus a consistent counts line
still yields passed_all = false. -/
theorem c8_midline_result_suppresses_inference_witness :
    (parseMarkerSummary "x __RESULT__=OK\n__COUNTS__= 2 / 2\n").passedAll = false :=
  c8_midline_result_suppresses_inference "x __RESULT__=OK\n__COUNTS__= 2 / 2\n"
    (by decide) (by decide)

/-- C9: with several explicit result lines, the last one wins.  For any
stdout, let `pays` be the payloads of all stripped lines beginning with
`__RESULT__=`, in order of occurrence (other lines may precede, separate or
follow them).  If `pays` is nonempty, `passed_all` equals the verdict of its
*last* entry — each occurrence overwrites the value set by earlier ones. -/
theorem c9_last_result_line_wins (s : String) (pays : List Chars)
    (h : (linesOf s).filterMap extractResult = pays) (hne : pays ≠ []) :
    (parseMarkerSummary s).passedAll = (pays.getLast hne == okChars) := by
  apply passedAll_of_lastResultPayload
  unfold lastResultPayload
  rw [h]
  exact List.getLast?_eq_getLast pays hne

/-- C9 witness: `__RESULT__=OK` then `__RESULT__=FAIL`, followed by counts
and time lines (as the harness always prints), parses as passed_all = false
— the later result line overwrote the earlier one, and the trailing
non-result lines change nothing. -/
theorem c9_last_result_line_wins_witness :
    (parseMarkerSummary
      "__RESULT__=OK\n__RESULT__=FAIL\n__COUNTS__= 2 / 2\n__TIME__= 0.1\n").passedAll =
      false := by
  have h := c9_last_result_line_wins
    "__RESULT__=OK\n__RESULT__=FAIL\n__COUNTS__= 2 / 2\n__TIME__= 0.1\n"
    [['O', 'K'], ['F', 'A', 'I', 'L']] (by decide) (by decide)
  rw [h]
  decide

/-- C2 counterexample: verifying against an *empty* structured test-case
list reports `passed_all = true` with `num_total = 0` — the structured
tail prints `__RESULT__=OK` because `__NUM_PASSED__ == __NUM_TOTAL__` holds
vacuously (`0 == 0`), and the explicit result line is trusted by the parser.
This refutes the claim that zero total is never a pass. -/
theorem c2_counterexample_empty_suite :
    parseMarkerSummary (runStructuredStdout (fun _ _ => Except.ok PyVal.pnone) [] ['0']) =
      ⟨true, 0, 0⟩ := by decide

/-- C2 (amended): in free-form mode `passed_all = true` iff
`num_passed == num_total` *and* `num_total > 0` (the template guards with
`__NUM_PASSED__ != 0`); in structured mode `passed_all = true` iff
`num_passed == num_total` with no positivity guard, so an empty structured
list yields a vacuous pass; in both modes the reported counts are the
harness counters. -/
theorem c2_passed_all_characterization (tstr : Chars) (ht : LBFree tstr) :
    (∀ (f : PyFun) (cases : List TestCase),
      ((parseMarkerSummary (runStructuredStdout f cases tstr)).passedAll = true ↔
        structPassed f cases = cases.length) ∧
      (parseMarkerSummary (runStructuredStdout f cases tstr)).numPassed =
        structPassed f cases ∧
      (parseMarkerSummary (runStructuredStdout f cases tstr)).numTotal = cases.length) ∧
    (∀ snippet : List SnippetStmt, MsgsLBFree snippet →
      ((parseMarkerSummary (runHumanevalStdout snippet tstr)).passedAll = true ↔
        ((runSnippet snippet ⟨0, 0, 0⟩).st.numPassed =
            (runSnippet snippet ⟨0, 0, 0⟩).st.numTotal ∧
          0 < (runSnippet snippet ⟨0, 0, 0⟩).st.numTotal)) ∧
      (parseMarkerSummary (runHumanevalStdout snippet tstr)).numPassed =
        (runSnippet snippet ⟨0, 0, 0⟩).st.numPassed ∧
      (parseMarkerSummary (runHumanevalStdout snippet tstr)).numTotal =
        (runSnippet snippet ⟨0, 0, 0⟩).st.numTotal) := by
  constructor
  · intro f cases
    rw [parse_runStructured f cases tstr ht]
    refine ⟨?_, rfl, rfl⟩
    simp
  · intro snippet hm
    rw [parse_runHumaneval snippet tstr ht hm]
    refine ⟨?_, rfl, rfl⟩
    simp only [Bool.and_eq_true, bne_iff_ne, beq_iff_eq, ne_eq]
    constructor
    · rintro ⟨hne, heq⟩
      exact ⟨heq, by omega⟩
    · rintro ⟨heq, hpos⟩
      exact ⟨by omega, heq⟩

/-- C2 witness: a one-case suite whose case passes reports passed_all = true
with counts 1/1; the empty free-form snippet reports counts 0/0 and
passed_all = false. -/
theorem c2_passed_all_characterization_witness :
    (((parseMarkerSummary (runStructuredStdout (fun _ _ => Except.ok PyVal.pnone)
        [⟨"t", [], [], PyVal.pnone⟩] ['0'])).passedAll = true ↔
      structPassed (fun _ _ => Except.ok PyVal.pnone) [⟨"t", [], [], PyVal.pnone⟩] =
        [(⟨"t", [], [], PyVal.pnone⟩ : TestCase)].length) ∧
     (parseMarkerSummary (runHumanevalStdout [] ['0'])).numTotal =
       (runSnippet [] ⟨0, 0, 0⟩).st.numTotal) :=
  ⟨((c2_passed_all_characterization ['0'] (by decide)).1 _ _).1,
    ((c2_passed_all_characterization ['0'] (by decide)).2 []
      (fun c m h => by simp at h)).2.2⟩

/-- C3 counterexample: a snippet performing one bare `assert` statement is
*not* intercepted by the installed `assert_` primitive: a passing bare
assert leaves all counters at zero and prints no `__CASE__` line, and a
failing one aborts the snippet with an `AssertionError` (surfaced as an
`__EXC__` marker) with the counters still zero — the claim demanded a
counter increment and one `__CASE__` line per assertion. -/
theorem c3_counterexample_bare_assert :
    runSnippet [SnippetStmt.assertStmt true] ⟨0, 0, 0⟩ =
      ⟨⟨0, 0, 0⟩, [], Option.none⟩ ∧
    runSnippet [SnippetStmt.assertStmt false] ⟨0, 0, 0⟩ =
      ⟨⟨0, 0, 0⟩, [],
        some (['A', 's', 's', 'e', 'r', 't', 'i', 'o', 'n', 'E', 'r', 'r', 'o', 'r'], [])⟩ :=
  ⟨rfl, rfl⟩

/-- C3 (amended): assertions routed through the harness's overridable
primitive `assert_` are fully instrumented — each call bumps the
total-assertion counter, bumps the passed counter exactly when the condition
holds, and prints one `__CASE__ <id> PASS` / `__CASE__ <id> FAIL <msg>`
line; for a snippet consisting solely of `assert_` calls, the totals equal
the number of assertions, one marker line is printed per assertion in
order, and no exception escapes.  (Bare `assert` statements bypass the
instrumentation entirely — see the counterexample.) -/
theorem c3_assert_primitive_instrumentation :
    (∀ (st : FreeState) (cond : Bool) (msg : Option Chars),
      (logAssert st cond msg).1.numTotal = st.numTotal + 1 ∧
      (logAssert st cond msg).1.numPassed = st.numPassed + (if cond then 1 else 0) ∧
      (logAssert st cond msg).2 = logAssertLine (st.caseId + 1) cond msg) ∧
    (∀ (stmts : List SnippetStmt) (st : FreeState),
      (∀ s ∈ stmts, ∃ c m, s = SnippetStmt.assertCall c m) →
      (runSnippet stmts st).st.numTotal = st.numTotal + stmts.length ∧
      (runSnippet stmts st).lines.length = stmts.length ∧
      (runSnippet stmts st).exc = Option.none ∧
      (∀ (j : Nat) (c : Bool) (m : Option Chars),
        stmts[j]? = some (SnippetStmt.assertCall c m) →
        (runSnippet stmts st).lines[j]? =
          some (logAssertLine (st.caseId + j + 1) c m))) := by
  constructor
  · intro st cond msg
    rw [logAssert_eq]
    exact ⟨rfl, rfl, rfl⟩
  · intro stmts
    induction stmts with
    | nil =>
      intro st _
      refine ⟨rfl, rfl, rfl, ?_⟩
      intro j c m h
      simp at h
    | cons s rest ih =>
      intro st hall
      obtain ⟨c0, m0, rfl⟩ := hall s (by simp)
      have hrest : ∀ x ∈ rest, ∃ c m, x = SnippetStmt.assertCall c m := fun x hx =>
        hall x (by simp [hx])
      have hrun : runSnippet (SnippetStmt.assertCall c0 m0 :: rest) st =
          ⟨(runSnippet rest ⟨st.caseId + 1, st.numPassed + (if c0 then 1 else 0),
              st.numTotal + 1⟩).st,
            logAssertLine (st.caseId + 1) c0 m0 ::
              (runSnippet rest ⟨st.caseId + 1, st.numPassed + (if c0 then 1 else 0),
                st.numTotal + 1⟩).lines,
            (runSnippet rest ⟨st.caseId + 1, st.numPassed + (if c0 then 1 else 0),
              st.numTotal + 1⟩).exc⟩ := by
        rw [runSnippet, logAssert_eq]
      obtain ⟨ht, hlen, hexc, hget⟩ :=
        ih ⟨st.caseId + 1, st.numPassed + (if c0 then 1 else 0), st.numTotal + 1⟩ hrest
      rw [hrun]
      refine ⟨?_, ?_, ?_, ?_⟩
      · dsimp only
        rw [ht]
        dsimp only
        simp only [List.length_cons]
        omega
      · dsimp only
        simp [hlen]
      · exact hexc
      · intro j c m hj
        cases j with
        | zero =>
          simp only [List.getElem?_cons_zero, Option.some.injEq] at hj
          injection hj with h1 h2
          subst h1
          subst h2
          simp
        | succ j' =>
          simp only [List.getElem?_cons_succ] at hj
          dsimp only
          simp only [List.getElem?_cons_succ]
          rw [hget j' c m hj]
          congr 2
          dsimp only
          omega

/-- C3 witness: a two-call snippet (one passing, one failing `assert_`)
yields totals 2, two marker lines, no exception, and the expected per-call
lines. -/
theorem c3_assert_primitive_instrumentation_witness :
    (runSnippet [SnippetStmt.assertCall true Option.none,
      SnippetStmt.assertCall false (some ['b'])] ⟨0, 0, 0⟩).st.numTotal = 0 + 2 ∧
    (runSnippet [SnippetStmt.assertCall true Option.none,
      SnippetStmt.assertCall false (some ['b'])] ⟨0, 0, 0⟩).lines.length = 2 ∧
    (runSnippet [SnippetStmt.assertCall true Option.none,
      SnippetStmt.assertCall false (some ['b'])] ⟨0, 0, 0⟩).exc = Option.none := by
  have h := c3_assert_primitive_instrumentation.2
    [SnippetStmt.assertCall true Option.none, SnippetStmt.assertCall false (some ['b'])]
    ⟨0, 0, 0⟩
    (by
      intro s hs
      rcases List.mem_cons.mp hs with rfl | hs2
      · exact ⟨true, Option.none, rfl⟩
      · rcases List.mem_cons.mp hs2 with rfl | hs3
        · exact ⟨false, some ['b'], rfl⟩
        · simp at hs3)
  exact ⟨h.1, h.2.1, h.2.2.1⟩

/-- C4: for a structured test-case list of length N, the reported
`num_total` is exactly N; the harness emits one guarded `__CASE__` line per
test case, at the case's position in input order, carrying the case's
computed `__ok` flag, recorded result and expected value; and a case whose
call raises is recorded as failed with the `__EXC__:<type>:<message>` tag
string standing in for the result value. -/
theorem c4_structured_harness (f : PyFun) (cases : List TestCase) (tstr : Chars)
    (ht : LBFree tstr) :
    (parseMarkerSummary (runStructuredStdout f cases tstr)).numTotal = cases.length ∧
    (∀ (j : Nat) (tc : TestCase), cases[j]? = some tc →
      (linesOf (runStructuredStdout f cases tstr))[j]? =
        some (caseLineChars j (runCase f tc).2 (runCase f tc).1 tc.expected)) ∧
    (∀ (tc : TestCase) (e : PyExc), f tc.args tc.kwargs = Except.error e →
      runCase f tc = (PyVal.pstr (excTagChars e), false)) := by
  refine ⟨?_, ?_, ?_⟩
  · rw [parse_runStructured f cases tstr ht]
  · intro j tc hj
    rw [linesOf_runStructured f cases tstr ht]
    have hjlt : j < cases.length := by
      by_contra hge
      rw [List.getElem?_eq_none (by omega)] at hj
      exact absurd hj (by simp)
    have hjb : j < (structCaseLinesFrom f 0 cases).length := by
      rw [structCaseLines_length]
      exact hjlt
    rw [List.getElem?_append_left hjb]
    have := structCaseLines_get f cases 0 j tc hj
    rw [this]
    simp
  · intro tc e he
    simp [runCase, he]

/-- C4 witness: a single case whose call raises `ValueError` is reported
with total 1, a `__CASE__ 0 0 ...` line carrying the exception tag, and the
tag value recorded in place of a result. -/
theorem c4_structured_harness_witness :
    (parseMarkerSummary (runStructuredStdout
      (fun _ _ => Except.error ⟨['V'], ['m']⟩) [⟨"t", [], [], PyVal.pnone⟩]
      ['0'])).numTotal = 1 ∧
    runCase (fun _ _ => Except.error ⟨['V'], ['m']⟩) ⟨"t", [], [], PyVal.pnone⟩ =
      (PyVal.pstr (excTagChars ⟨['V'], ['m']⟩), false) := by
  have h := c4_structured_harness (fun _ _ => Except.error ⟨['V'], ['m']⟩)
    [⟨"t", [], [], PyVal.pnone⟩] ['0'] (by decide)
  exact ⟨h.1, h.2.2 ⟨"t", [], [], PyVal.pnone⟩ ⟨['V'], ['m']⟩ rfl⟩

/-- C5 counterexample: a counts line whose left field is an integer but
whose right field is not (`__COUNTS__= 3 / x`) does *not* leave both counts
at their prior values: `num_passed = int(left)` has already executed when
`int(right)` raises, so after a well-formed `__COUNTS__= 1 / 2` the
malformed line leaves the parser at `num_passed = 3`, `num_total = 2`
(the claim demanded the prior `(1, 2)`). -/
theorem c5_counterexample_partial_counts_update :
    countsMarker.isPrefixOf (pyStrip ("__COUNTS__= 3 / x".data)) = true ∧
    countsFields ("__COUNTS__= 3 / x".data) = Option.none ∧
    parseMarkerSummary "__COUNTS__= 1 / 2\n__COUNTS__= 3 / x\n" = ⟨false, 3, 2⟩ :=
  ⟨by decide, by decide, by decide⟩

/-- C5 (amended): a malformed `__COUNTS__` line never aborts parsing (the
embedding is total where the source catches `ValueError`).  If the line does
not split into exactly two fields around `/`, or its first field is not an
integer, both counts keep their prior values and — provided the malformed
line does not itself contain the `__RESULT__=` substring — the whole parse
is as if the line were absent; if the first field parses but the second does
not, `num_passed` is set to the first field's value while `num_total` keeps
its prior value. -/
theorem c5_malformed_counts_behavior :
    (∀ (ls1 ls2 : List Chars) (m : Chars),
      (∀ l ∈ ls1 ++ m :: ls2, LBFree l) →
      countsMarker.isPrefixOf (pyStrip m) = true →
      (match splitSlash (pyStrip ((pyStrip m).drop 11)) with
        | [a, _] => pyInt (pyStrip a) = Option.none
        | _ => True) →
      containsSub resMarker m = false →
      parseMarkerSummary (mkStdout (ls1 ++ m :: ls2)) =
        parseMarkerSummary (mkStdout (ls1 ++ ls2))) ∧
    (∀ (ls : List Chars) (m : Chars) (a b : Chars) (pv : Int),
      (∀ l ∈ ls ++ [m], LBFree l) →
      countsMarker.isPrefixOf (pyStrip m) = true →
      splitSlash (pyStrip ((pyStrip m).drop 11)) = [a, b] →
      pyInt (pyStrip a) = some pv →
      pyInt (pyStrip b) = Option.none →
      (parseMarkerSummary (mkStdout (ls ++ [m]))).numPassed = pv ∧
      (parseMarkerSummary (mkStdout (ls ++ [m]))).numTotal =
        (parseLinesC ls).numTotal) := by
  constructor
  · intro ls1 ls2 m hlb h2 h3 hcon
    unfold parseMarkerSummary
    rw [linesOf_mkStdout _ hlb, linesOf_mkStdout]
    · unfold parseLinesC
      have hfold : List.foldl parseStep (false, 0, 0) (ls1 ++ m :: ls2) =
          List.foldl parseStep (false, 0, 0) (ls1 ++ ls2) := by
        rw [List.foldl_append, List.foldl_append, List.foldl_cons,
          parseStep_malformed_skip _ m h2 h3]
      have hany : ((ls1 ++ m :: ls2).any fun l => containsSub resMarker l) =
          ((ls1 ++ ls2).any fun l => containsSub resMarker l) := by
        simp [List.any_append, List.any_cons, hcon]
      rw [hfold, hany]
    · intro l hl
      apply hlb
      rcases List.mem_append.mp hl with h | h
      · exact List.mem_append_left _ h
      · exact List.mem_append_right _ (by simp [h])
  · intro ls m a b pv hlb h2 hsplit hleft hright
    unfold parseMarkerSummary
    rw [linesOf_mkStdout _ hlb]
    unfold parseLinesC
    rw [List.foldl_append, List.foldl_cons, List.foldl_nil,
      parseStep_counts_partial _ m a b pv h2 hsplit hleft hright]
    exact ⟨rfl, rfl⟩

/-- C5 witness: inserting the arity-malformed line `__COUNTS__= 3` between
two well-formed marker lines leaves the parse unchanged, and the
partially-malformed `__COUNTS__= 3 / x` after `__COUNTS__= 1 / 2` yields
`num_passed = 3` with `num_total` still 2. -/
theorem c5_malformed_counts_behavior_witness :
    parseMarkerSummary (mkStdout (["__COUNTS__= 1 / 2".data] ++
        "__COUNTS__= 3".data :: ["__RESULT__=OK".data])) =
      parseMarkerSummary (mkStdout (["__COUNTS__= 1 / 2".data] ++
        ["__RESULT__=OK".data])) ∧
    (parseMarkerSummary (mkStdout (["__COUNTS__= 1 / 2".data] ++
        ["__COUNTS__= 3 / x".data]))).numPassed = 3 ∧
    (parseMarkerSummary (mkStdout (["__COUNTS__= 1 / 2".data] ++
        ["__COUNTS__= 3 / x".data]))).numTotal =
      (parseLinesC ["__COUNTS__= 1 / 2".data]).numTotal := by
  have h1 := c5_malformed_counts_behavior.1 ["__COUNTS__= 1 / 2".data]
    ["__RESULT__=OK".data] ("__COUNTS__= 3".data)
    (by decide) (by decide)
    (by
      rw [show splitSlash (pyStrip (List.drop 11 (pyStrip "__COUNTS__= 3".data))) =
        [['3']] from by decide]
      trivial)
    (by decide)
  have h2 := c5_malformed_counts_behavior.2 ["__COUNTS__= 1 / 2".data]
    ("__COUNTS__= 3 / x".data) ("3 ".data) (" x".data) 3
    (by decide) (by decide) (by decide) (by decide) (by decide)
  exact ⟨h1, h2.1, h2.2⟩

/-- C6: on a wall-clock timeout, both executors return `ok = false` with
`exception = "timeout"`, carrying over whatever partial stdout/stderr the
timeout exception captured (empty when none was captured) — the timeout is
converted to a result value, not re-raised. -/
theorem c6_timeout_classification (posix : Bool) (pout perr : Option String)
    (elapsed : Nat) (bin : String) :
    run_python posix (SubprocOutcome.timedOut pout perr) elapsed =
      ⟨false, pout.getD "", perr.getD "", some "timeout", elapsed⟩ ∧
    run_python_in_docker (some bin) (SubprocOutcome.timedOut pout perr) elapsed =
      ⟨false, pout.getD "", perr.getD "", some "timeout", elapsed⟩ :=
  ⟨rfl, rfl⟩

/-- C7 counterexample: when the docker binary cannot be located the
container executor returns the tag `"docker_not_found"`, not the claimed
`"runtime_not_found"`. -/
theorem c7_counterexample_tag_name :
    run_python_in_docker Option.none (SubprocOutcome.completed 0 "out" "err") 3 =
      ⟨false, "", "", some "docker_not_found", 3⟩ ∧
    ("docker_not_found" : String) ≠ "runtime_not_found" :=
  ⟨rfl, by decide⟩

/-- C7 (amended): when the container engine binary cannot be located, the
container executor returns `ok = false` with `exception = "docker_not_found"`
without attempting execution — the result is the same for every conceivable
subprocess outcome, i.e. nothing that follows the binary lookup (scratch
directory, child process) can influence it. -/
theorem c7_missing_engine_fails_fast (outcome : SubprocOutcome) (elapsed : Nat) :
    run_python_in_docker Option.none outcome elapsed =
      ⟨false, "", "", some "docker_not_found", elapsed⟩ := rfl

/-- C10: `verify` raises `TypeError` exactly on a `test_suite` that is
neither a string nor a list, without invoking the runner (the outcome is
the same for every runner); for the two accepted shapes it never raises and
always returns the result dictionary. -/
theorem c10_verify_dispatch (runner : String → ExecResult) (code fn : String) :
    (∀ tag, verify runner code fn (TestSuiteArg.other tag) =
      Except.error typeErrorMsg) ∧
    (∀ tag (runner2 : String → ExecResult),
      verify runner code fn (TestSuiteArg.other tag) =
        verify runner2 code fn (TestSuiteArg.other tag)) ∧
    (∀ s, ∃ r, verify runner code fn (TestSuiteArg.snippet s) = Except.ok r) ∧
    (∀ l, ∃ r, verify runner code fn (TestSuiteArg.caseList l) = Except.ok r) :=
  ⟨fun _ => rfl, fun _ _ => rfl, fun _ => ⟨_, rfl⟩, fun _ => ⟨_, rfl⟩⟩
